import Mathlib

/-!
Shallow embedding of the deal-discovery pipeline of `projeto_afiliados`
(the community-deal scraper and the Amazon scraper found in
`functions/src`).  JavaScript numbers are modelled as exact rationals
(`ℚ`) for parsed quantities and as real numbers (`ℝ`) inside the deal
score, where the source uses `Math.log10`; `Math.round x` is modelled as
`round x = ⌊x + 1/2⌋`, which agrees with JavaScript's half-up rounding.
Cheerio DOM queries are abstracted: a scraped card is the record of the
text/attribute results of the per-field selector queries, and an HTML
page is the per-card-selector list of matched cards, in document order.
-/

namespace Afiliados

/-! ## String helpers (JavaScript primitives used by the scrapers) -/

/-- The character set matched by the JavaScript regex class `\s`
(the members that can occur in the scraped data; exotic Unicode spaces
are not modelled). -/
def isJsSpace (c : Char) : Bool :=
  c = ' ' || c = '\t' || c = '\n' || c = '\r' || c = '\x0b' || c = '\x0c' || c = '\u00A0'

/-- The `String.prototype.toLowerCase`, on the ASCII and Latin-1 letters that
occur in the sources' keyword tables ('×' `U+00D7` is not a letter). -/
def jsLowerChar (c : Char) : Char :=
  if 'A' ≤ c ∧ c ≤ 'Z' then Char.ofNat (c.toNat + 32)
  else if 'À' ≤ c ∧ c ≤ 'Þ' ∧ c ≠ '×' then Char.ofNat (c.toNat + 32)
  else c

def jsLower (s : String) : String :=
  String.mk (s.toList.map jsLowerChar)

/-- JavaScript `String.prototype.trim` (the `\\s` class above). -/
def jsTrim (s : String) : String :=
  String.mk (((s.toList.dropWhile isJsSpace).reverse.dropWhile isJsSpace).reverse)

/-- The `s.substring(0, n)` (also `List.take` on the characters). -/
def jsTake (s : String) (n : ℕ) : String :=
  String.mk (s.toList.take n)

/-- The `hay.startsWith(needle)` on character lists. -/
def startsWithLst : List Char → List Char → Bool
  | [], _ => true
  | _ :: _, [] => false
  | a :: as, b :: bs => a = b && startsWithLst as bs

/-- The `hay.includes(needle)` on character lists. -/
def containsLst (needle : List Char) : List Char → Bool
  | [] => needle.isEmpty
  | c :: rest => startsWithLst needle (c :: rest) || containsLst needle rest

/-- The `hay.includes(needle)` on strings. -/
def substrJS (needle hay : String) : Bool :=
  containsLst needle.toList hay.toList

/-- The `s.startsWith(pre)` on strings. -/
def jsStartsWith (pre s : String) : Bool :=
  startsWithLst pre.toList s.toList

/-- The `priceStr.replace(/[R$\s]/g, "")`: drop `R`, `$` and whitespace. -/
def stripPriceChars (cs : List Char) : List Char :=
  cs.filter (fun c => !(c = 'R' || c = '$' || isJsSpace c))

/-- The `replace(/\.(?=\d{3})/g, "")`: drop every period followed by (at least)
three digits; the lookahead consumes nothing. -/
def stripThousandSeps : List Char → List Char
  | [] => []
  | c :: rest =>
    if c = '.' ∧ (rest.take 3).length = 3 ∧ (rest.take 3).all Char.isDigit then
      stripThousandSeps rest
    else c :: stripThousandSeps rest

/-- The `String.prototype.replace(",", ".")`: only the first comma is replaced. -/
def replaceFirstComma : List Char → List Char
  | [] => []
  | c :: rest => if c = ',' then '.' :: rest else c :: replaceFirstComma rest

def digitsVal (ds : List Char) : ℕ :=
  ds.foldl (fun a c => 10 * a + (c.toNat - '0'.toNat)) 0

/-- The syntactic pieces recognised by JavaScript `parseFloat`:
sign, integer digits, fraction digits, exponent sign and digits. -/
structure FloatParts where
  neg : Bool
  intD : List Char
  fracD : List Char
  expNeg : Bool
  expD : List Char
  deriving DecidableEq, Repr

/-- The character-level scan of JavaScript `parseFloat` (the `Infinity`
forms cannot arise from price strings and are not modelled). -/
def parseFloatParts (cs0 : List Char) : FloatParts :=
  let cs := cs0.dropWhile isJsSpace
  let neg : Bool := match cs with
    | '-' :: _ => true
    | _ => false
  let cs := match cs with
    | '-' :: rest => rest
    | '+' :: rest => rest
    | _ => cs
  let intD := cs.takeWhile Char.isDigit
  let cs1 := cs.dropWhile Char.isDigit
  let fracD := match cs1 with
    | '.' :: rest => rest.takeWhile Char.isDigit
    | _ => []
  let cs2 := match cs1 with
    | '.' :: rest => rest.dropWhile Char.isDigit
    | _ => cs1
  let expD := match cs2 with
    | 'e' :: '-' :: ds | 'e' :: '+' :: ds | 'e' :: ds => ds.takeWhile Char.isDigit
    | 'E' :: '-' :: ds | 'E' :: '+' :: ds | 'E' :: ds => ds.takeWhile Char.isDigit
    | _ => []
  let expNeg : Bool := match cs2 with
    | 'e' :: '-' :: _ | 'E' :: '-' :: _ => true
    | _ => false
  ⟨neg, intD, fracD, expNeg, expD⟩

/-- Numeric value of the recognised pieces; `none` where `parseFloat`
returns `NaN` (no digits at all). -/
def FloatParts.value (p : FloatParts) : Option ℚ :=
  if p.intD = [] ∧ p.fracD = [] then none
  else
    let mantissa : ℚ := (digitsVal p.intD : ℚ) + (digitsVal p.fracD : ℚ) / 10 ^ p.fracD.length
    let e : ℤ := if p.expNeg then -(digitsVal p.expD : ℤ) else (digitsVal p.expD : ℤ)
    some ((if p.neg then (-1 : ℚ) else 1) * mantissa * (10 : ℚ) ^ e)

/-- JavaScript `parseFloat` on a character list. -/
def parseFloatJS (cs : List Char) : Option ℚ :=
  (parseFloatParts cs).value

/-- The `parsePrice` (community scraper; the Amazon scraper's `parsePrice`
has the identical body): strip `R`, `$` and whitespace, drop thousands
periods, turn the first comma into the decimal point, `parseFloat`,
`NaN ↦ 0`. -/
def parsePrice (s : String) : ℚ :=
  let cleaned := replaceFirstComma (stripThousandSeps (stripPriceChars s.toList))
  (parseFloatJS cleaned).getD 0

/-! ## Claim C5 -/

/-- C5: `parsePrice` accepts Brazilian-locale price strings and is total:
`"R$ 1.234,56"` parses to `1234.56`, `"R$99,90"` to `99.90`, and
unparseable input (`""`, `"grátis"`) parses to `0`; totality of the Lean
function mirrors the JavaScript function never throwing. -/
theorem c5_parsePrice_locale_total :
    parsePrice "R$ 1.234,56" = 1234.56 ∧ parsePrice "R$99,90" = 99.90 ∧
    parsePrice "" = 0 ∧ parsePrice "grátis" = 0 := by
  refine ⟨?_, ?_, ?_, ?_⟩
  · have h : parseFloatParts (replaceFirstComma (stripThousandSeps
        (stripPriceChars ("R$ 1.234,56").toList))) =
        ⟨false, ['1', '2', '3', '4'], ['5', '6'], false, []⟩ := by decide
    have h1 : digitsVal ['1', '2', '3', '4'] = 1234 := by decide
    have h2 : digitsVal ['5', '6'] = 56 := by decide
    have h3 : digitsVal ([] : List Char) = 0 := by decide
    simp only [parsePrice, parseFloatJS, h, FloatParts.value, h1, h2, h3]
    rw [if_neg (by simp), Option.getD_some]
    norm_num
  · have h : parseFloatParts (replaceFirstComma (stripThousandSeps
        (stripPriceChars ("R$99,90").toList))) =
        ⟨false, ['9', '9'], ['9', '0'], false, []⟩ := by decide
    have h1 : digitsVal ['9', '9'] = 99 := by decide
    have h2 : digitsVal ['9', '0'] = 90 := by decide
    have h3 : digitsVal ([] : List Char) = 0 := by decide
    simp only [parsePrice, parseFloatJS, h, FloatParts.value, h1, h2, h3]
    rw [if_neg (by simp), Option.getD_some]
    norm_num
  · have h : parseFloatParts (replaceFirstComma (stripThousandSeps
        (stripPriceChars ("" : String).toList))) = ⟨false, [], [], false, []⟩ := by decide
    simp only [parsePrice, parseFloatJS, h, FloatParts.value]
    norm_num
  · have h : parseFloatParts (replaceFirstComma (stripThousandSeps
        (stripPriceChars ("grátis").toList))) = ⟨false, [], [], false, []⟩ := by decide
    simp only [parsePrice, parseFloatJS, h, FloatParts.value]
    norm_num

/-! ## Remaining field parsers -/

/-- The `String.prototype.toUpperCase` on ASCII and Latin-1 letters. -/
def jsUpperChar (c : Char) : Char :=
  if 'a' ≤ c ∧ c ≤ 'z' then Char.ofNat (c.toNat - 32)
  else if 'à' ≤ c ∧ c ≤ 'þ' ∧ c ≠ '÷' then Char.ofNat (c.toNat - 32)
  else c

def jsUpper (s : String) : String :=
  String.mk (s.toList.map jsUpperChar)

/-- First maximal digit run in the string (the regex `/(\d+)/`). -/
def firstDigitRun : List Char → List Char
  | [] => []
  | c :: rest => if c.isDigit then (c :: rest).takeWhile Char.isDigit else firstDigitRun rest

/-- The `parseDiscount` (community): `discountStr.match(/(\d+)/)`, `parseInt`
of the capture, else 0. -/
def parseDiscount (s : String) : ℤ :=
  match firstDigitRun s.toList with
  | [] => 0
  | ds => (digitsVal ds : ℤ)

/-- JavaScript `parseInt(str, 10)`: optional sign, then leading digits;
`none` where it returns `NaN`. -/
def parseIntJS (cs0 : List Char) : Option ℤ :=
  let cs := cs0.dropWhile isJsSpace
  let neg : Bool := match cs with
    | '-' :: _ => true
    | _ => false
  let cs := match cs with
    | '-' :: rest => rest
    | '+' :: rest => rest
    | _ => cs
  let ds := cs.takeWhile Char.isDigit
  if ds = [] then none
  else some (if neg then -(digitsVal ds : ℤ) else (digitsVal ds : ℤ))

/-- The `parseUpvotes` (community): keep only digits and `-`, `parseInt`,
`NaN ↦ 0` (note the kept `-` makes negative vote counts possible). -/
def parseUpvotes (s : String) : ℤ :=
  let cleaned := s.toList.filter (fun c => c.isDigit || c = '-')
  (parseIntJS cleaned).getD 0

/-- Scan for the regex `/(\d)[,.](\d)/`: first digit, separator, digit. -/
def ratingScan : List Char → Option (Char × Char)
  | d1 :: sep :: d2 :: rest =>
    if d1.isDigit ∧ (sep = ',' ∨ sep = '.') ∧ d2.isDigit then some (d1, d2)
    else ratingScan (sep :: d2 :: rest)
  | _ => none

/-- The `parseRating` (Amazon): first `d,d` or `d.d` pattern as `d.d`, else 0. -/
def parseRating (s : String) : ℚ :=
  match ratingScan s.toList with
  | some (d1, d2) => ((d1.toNat - '0'.toNat : ℕ) : ℚ) + ((d2.toNat - '0'.toNat : ℕ) : ℚ) / 10
  | none => 0

/-- The `parseReviewCount` (Amazon): drop `.` and whitespace, first digit run,
`parseInt`, else 0. -/
def parseReviewCount (s : String) : ℕ :=
  let cleaned := s.toList.filter (fun c => !(c = '.' || isJsSpace c))
  match firstDigitRun cleaned with
  | [] => 0
  | ds => digitsVal ds

/-! ## ASIN extraction -/

/-- The `[A-Z0-9]` under the `/i` flag. -/
def isAsinChar (c : Char) : Bool := c.isAlphanum

/-- Case-insensitive literal-prefix match, returning the rest of the hay. -/
def dropPrefixCI : List Char → List Char → Option (List Char)
  | [], hay => some hay
  | _ :: _, [] => none
  | n :: ns, h :: hs => if jsLowerChar n = jsLowerChar h then dropPrefixCI ns hs else none

/-- First match of the regex `pre(good{n})` (`count = some n`) or
`pre(good+)` (`count = none`) in the hay, returning the capture.
Scanning advances one character at a time, as the regex engine does. -/
def regexCapture (pre : List Char) (good : Char → Bool) (count : Option ℕ) :
    List Char → Option (List Char)
  | [] => none
  | c :: rest =>
    match dropPrefixCI pre (c :: rest) with
    | some after =>
      (match count with
       | some n =>
         if (after.take n).length = n ∧ (after.take n).all good then some (after.take n)
         else regexCapture pre good count rest
       | none =>
         let run := after.takeWhile good
         if run.isEmpty then regexCapture pre good count rest else some run)
    | none => regexCapture pre good count rest

/-- The four URL patterns of the community scraper's `extractAsin`,
as (literal prefix, capture character class, fixed capture length). -/
def asinPats : List (List Char × (Char → Bool) × Option ℕ) :=
  [(("amazon.com.br/dp/").toList, isAsinChar, some 10),
   (("amazon.com.br/gp/product/").toList, isAsinChar, some 10),
   (("amzn.to/").toList, isAsinChar, none),
   (("tag=").toList, fun c => c ≠ '&', none)]

/-- The `extractAsin` (community): first pattern whose capture has length 10,
uppercased. -/
def extractAsin (url : String) : Option String :=
  if url = "" then none
  else (asinPats.filterMap (fun p =>
    match regexCapture p.1 p.2.1 p.2.2 url.toList with
    | some cap => if cap.length = 10 then some (jsUpper (String.mk cap)) else none
    | none => none)).head?

/-- The four URL patterns of the Amazon scraper's `extractAsin`
(all captures are `[A-Z0-9]{10}` under `/i`). -/
def asinPatsAmz : List (List Char) :=
  [("/dp/").toList, ("/gp/product/").toList, ("/product/").toList, ("asin=").toList]

/-- The `extractAsin` (Amazon scraper). -/
def extractAsinAmz (url : String) : Option String :=
  if url = "" then none
  else (asinPatsAmz.filterMap (fun pre =>
    (regexCapture pre isAsinChar (some 10) url.toList).map
      (fun cap => jsUpper (String.mk cap)))).head?

/-! ## Category normalisation -/

/-- The `CATEGORY_KEYWORDS` of the community scraper, in object-literal order. -/
def CATEGORY_KEYWORDS : List (String × List String) :=
  [("electronics", ["eletrônico", "celular", "smartphone", "notebook", "tablet", "fone",
    "tv", "monitor", "ssd", "hd", "mouse", "teclado", "webcam", "câmera", "console",
    "playstation", "xbox", "switch", "gamer"]),
   ("home", ["casa", "cozinha", "eletrodoméstico", "aspirador", "cafeteira",
    "liquidificador", "airfryer", "panela", "fogão", "geladeira", "micro-ondas",
    "ventilador", "ar condicionado"]),
   ("sports", ["esporte", "academia", "fitness", "bike", "bicicleta", "tênis", "corrida",
    "whey", "suplemento", "haltere", "esteira"]),
   ("toys", ["brinquedo", "lego", "boneca", "carrinho", "jogo", "nerf", "barbie",
    "hot wheels"])]

/-- The `normalizeCategory` (community): first category one of whose keywords
is a substring of the lower-cased text, else "other". -/
def normalizeCategory (text : String) : String :=
  let lower := jsLower text
  match CATEGORY_KEYWORDS.find? (fun p => p.2.any (fun kw => substrJS kw lower)) with
  | some p => p.1
  | none => "other"

/-- The `CATEGORY_MAPPING` of the Amazon scraper (exact marketplace labels). -/
def CATEGORY_MAPPING : List (String × List String) :=
  [("electronics", ["Eletrônicos", "TV, Áudio e Cinema em Casa", "PC e Eletrônicos Portáteis",
    "Celulares", "Câmera e Fotografia", "Videogames e Consoles",
    "Acessórios para Eletrônicos", "Informática", "Games", "Computadores",
    "Tablets", "Fones de Ouvido", "Smart Home", "Wearables"]),
   ("home", ["Casa", "Eletrodomésticos de Linha Branca", "Cozinha, Jardim e Piscina",
    "Móveis", "Ferramentas e Construção", "Eletrodomésticos", "Cozinha",
    "Decoração", "Organização", "Limpeza", "Iluminação"]),
   ("sports", ["Esportes, Aventura e Lazer", "Esportes", "Academia", "Fitness", "Outdoor",
    "Camping", "Ciclismo", "Natação", "Corrida", "Musculação"]),
   ("toys", ["Brinquedos e Jogos", "Brinquedos", "Games", "Jogos de Tabuleiro",
    "LEGO", "Bonecas", "Carrinhos", "Jogos Eletrônicos"])]

/-- The `CATEGORY_ALIASES` of the Amazon scraper (fuzzy colloquial terms). -/
def CATEGORY_ALIASES : List (String × List String) :=
  [("sports", ["esporte", "esportes", "academia", "fitness", "aventura", "outdoor",
    "camping", "ciclismo", "bike", "corrida"]),
   ("electronics", ["eletrônico", "eletronico", "tech", "tecnologia", "celular",
    "smartphone", "computador", "pc", "gamer", "notebook", "tablet", "fone"]),
   ("home", ["casa", "lar", "cozinha", "jardim", "móvel", "movel", "decoração",
    "decoracao", "eletrodomestico", "limpeza"]),
   ("toys", ["brinquedo", "brinquedos", "jogos", "infantil", "criança", "lego", "boneca"])]

/-- The `normalizeCategory` (Amazon): exact-label table first, fuzzy aliases
second, "other" if neither matches (and on empty input). -/
def normalizeCategoryAmz (amazonCategory : String) : String :=
  if amazonCategory = "" then "other"
  else
    let lower := jsLower amazonCategory
    match CATEGORY_MAPPING.find? (fun p => p.2.any (fun cat => substrJS (jsLower cat) lower)) with
    | some p => p.1
    | none =>
      match CATEGORY_ALIASES.find? (fun p => p.2.any (fun a => substrJS a lower)) with
      | some p => p.1
      | none => "other"

/-- The `CATEGORY_WEIGHTS[c] || CATEGORY_WEIGHTS.other` (community table). -/
def categoryWeight (c : String) : ℚ :=
  if c = "electronics" then 100
  else if c = "home" then 80
  else if c = "sports" then 75
  else if c = "toys" then 70
  else 50

/-- The `CATEGORY_WEIGHTS[c] || CATEGORY_WEIGHTS.other` (Amazon table). -/
def categoryWeightAmz (c : String) : ℚ :=
  if c = "electronics" then 100
  else if c = "home" then 80
  else if c = "sports" then 75
  else if c = "toys" then 70
  else 40

/-! ## Data model -/

/-- The `CommunityDeal` (community scraper). -/
structure CommunityDeal where
  id : String
  title : String
  price : ℚ
  originalPrice : Option ℚ
  discount : ℤ
  dealUrl : String
  amazonUrl : Option String
  asin : Option String
  imageUrl : String
  upvotes : ℤ
  category : String
  normalizedCategory : String
  source : String
  dealScore : ℤ
  scrapedAt : ℤ
  deriving DecidableEq, Repr

/-- The `"deals" | "bestsellers"` source tag of the Amazon scraper. -/
inductive SourceType where
  | deals
  | bestsellers
  deriving DecidableEq, Repr

/-- The `ScrapedProduct` (Amazon scraper). -/
structure ScrapedProduct where
  asin : String
  title : String
  price : ℚ
  originalPrice : Option ℚ
  discount : ℤ
  imageUrl : String
  productUrl : String
  rating : ℚ
  reviewCount : ℕ
  category : String
  normalizedCategory : String
  dealScore : ℤ
  source : SourceType
  scrapedAt : ℤ
  deriving DecidableEq, Repr

/-- The `generateDealId` (community): lowercased alphanumeric title hash
(first 20 chars) glued between the lowercased source and the rounded price. -/
def generateDealId (source title : String) (price : ℚ) : String :=
  let hash := String.mk (((jsLower title).toList.filter
    (fun c => ('a' ≤ c ∧ c ≤ 'z') ∨ c.isDigit)).take 20)
  jsLower source ++ "-" ++ hash ++ "-" ++ toString (round price)

/-! ## Quality filtering (`filterQualityDeals` / `filterQualityProducts`) -/

/-- The `CONFIG` thresholds of the community scraper. -/
def MIN_UPVOTES : ℤ := 5

def MIN_DISCOUNT : ℤ := 10

/-- The `CONFIG` thresholds of the Amazon scraper. -/
def MIN_PRICE : ℚ := 25

def MAX_PRICE : ℚ := 2500

def MIN_RATING : ℚ := 3

def MIN_REVIEWS : ℕ := 10

/-- The filter body of `filterQualityDeals` (community): early-return
chain of hard checks. -/
def qualityDealCheck (d : CommunityDeal) : Bool :=
  if d.title = "" ∨ d.title.length < 10 then false
  else if d.price > 0 ∧ (d.price < 20 ∨ d.price > 3000) then false
  else if d.upvotes < MIN_UPVOTES then false
  else if d.discount < MIN_DISCOUNT then false
  else true

def filterQualityDeals (deals : List CommunityDeal) : List CommunityDeal :=
  deals.filter qualityDealCheck

/-- The filter body of `filterQualityProducts` (Amazon): early-return
chain of hard checks. -/
def qualityProductCheck (p : ScrapedProduct) : Bool :=
  if p.asin = "" ∨ p.asin.length ≠ 10 then false
  else if p.title = "" ∨ p.title.length < 10 then false
  else if p.price < MIN_PRICE ∨ p.price > MAX_PRICE then false
  else if p.rating > 0 ∧ p.rating < MIN_RATING then false
  else if p.reviewCount > 0 ∧ p.reviewCount < MIN_REVIEWS then false
  else true

def filterQualityProducts (products : List ScrapedProduct) : List ScrapedProduct :=
  products.filter qualityProductCheck

/-! ## Deduplication (`deduplicateDeals` / `deduplicateProducts`)

A JavaScript `Map` is modelled as an association list: `set` on a present
key updates the value in place (keeping the key's first-insertion
position), `set` on an absent key appends, and `values()` lists values in
that order. -/

def jsMapGet {α : Type} : List (String × α) → String → Option α
  | [], _ => none
  | (k', v) :: rest, k => if k' = k then some v else jsMapGet rest k

def jsMapSet {α : Type} : List (String × α) → String → α → List (String × α)
  | [], k, v => [(k, v)]
  | (k', v') :: rest, k, v =>
    if k' = k then (k', v) :: rest else (k', v') :: jsMapSet rest k v

/-- One loop iteration of the dedup `for` loop: keep the stored listing
unless the incoming one has a strictly higher score. -/
def dedupStep {α : Type} (key : α → String) (score : α → ℤ)
    (m : List (String × α)) (d : α) : List (String × α) :=
  match jsMapGet m (key d) with
  | none => jsMapSet m (key d) d
  | some existing => if score d > score existing then jsMapSet m (key d) d else m

def dedupBy {α : Type} (key : α → String) (score : α → ℤ) (l : List α) : List α :=
  (l.foldl (dedupStep key score) []).map Prod.snd

/-- The dedup key of the community scraper: `deal.asin || deal.id`
(JavaScript truthiness: an empty-string ASIN also falls back to the id). -/
def dealKey (d : CommunityDeal) : String :=
  match d.asin with
  | some a => if a = "" then d.id else a
  | none => d.id

def deduplicateDeals (deals : List CommunityDeal) : List CommunityDeal :=
  dedupBy dealKey (fun d => d.dealScore) deals

def deduplicateProducts (products : List ScrapedProduct) : List ScrapedProduct :=
  dedupBy (fun p => p.asin) (fun p => p.dealScore) products

/-! ## Ranking

`allDeals.sort((a, b) => b.dealScore - a.dealScore)` — ECMAScript sort is
stable, so its output is the unique score-descending reordering that
keeps equal-score elements in input order; it is modelled by a stable
insertion sort. -/

def insertDesc {α : Type} (score : α → ℤ) (d : α) : List α → List α
  | [] => [d]
  | e :: es => if score e > score d then e :: insertDesc score d es else d :: e :: es

def sortByScoreDesc {α : Type} (score : α → ℤ) : List α → List α
  | [] => []
  | d :: ds => insertDesc score d (sortByScoreDesc score ds)

/-- The post-processing tail of `discoverCommunityDeals`:
dedup → quality filter → stable sort by score descending → `slice(0, limit)`. -/
def postProcessDeals (allDeals : List CommunityDeal) (limit : ℕ) : List CommunityDeal :=
  (sortByScoreDesc (fun d => d.dealScore)
    (filterQualityDeals (deduplicateDeals allDeals))).take limit

/-- The post-processing tail of `discoverProducts`. -/
def postProcessProducts (allProducts : List ScrapedProduct) (limit : ℕ) : List ScrapedProduct :=
  (sortByScoreDesc (fun p => p.dealScore)
    (filterQualityProducts (deduplicateProducts allProducts))).take limit

/-! ## Claim C4 — the quality filters -/

lemma ite_false_step {c : Prop} [Decidable c] {t : Bool} :
    ((if c then false else t) = true) ↔ ¬c ∧ t = true := by
  split_ifs with h <;> simp [h]

/-- The hard constraints `filterQualityDeals` actually enforces. -/
def qualityDealOk (d : CommunityDeal) : Prop :=
  10 ≤ d.title.length ∧ (d.price ≤ 0 ∨ (20 ≤ d.price ∧ d.price ≤ 3000)) ∧
    MIN_UPVOTES ≤ d.upvotes ∧ MIN_DISCOUNT ≤ d.discount

/-- The hard constraints `filterQualityProducts` actually enforces. -/
def qualityProductOk (p : ScrapedProduct) : Prop :=
  p.asin.length = 10 ∧ 10 ≤ p.title.length ∧
    MIN_PRICE ≤ p.price ∧ p.price ≤ MAX_PRICE ∧
    (p.rating ≤ 0 ∨ MIN_RATING ≤ p.rating) ∧
    (p.reviewCount = 0 ∨ MIN_REVIEWS ≤ p.reviewCount)

lemma qualityDealCheck_iff (d : CommunityDeal) :
    qualityDealCheck d = true ↔ qualityDealOk d := by
  rw [qualityDealCheck, ite_false_step, ite_false_step, ite_false_step, ite_false_step]
  simp only [and_true, qualityDealOk]
  constructor
  · rintro ⟨h1, h2, h3, h4⟩
    push_neg at h1 h2
    refine ⟨h1.2, ?_, not_lt.mp h3, not_lt.mp h4⟩
    rcases le_or_lt d.price 0 with hp | hp
    · exact Or.inl hp
    · exact Or.inr (h2 hp)
  · rintro ⟨ht, hp, hu, hd⟩
    refine ⟨?_, ?_, not_lt.mpr hu, not_lt.mpr hd⟩
    · rintro (heq | hlen)
      · rw [heq] at ht; exact absurd ht (by decide)
      · omega
    · rintro ⟨hp0, hbad⟩
      rcases hp with hple | ⟨h20, h3000⟩
      · linarith
      · rcases hbad with h | h <;> linarith

lemma qualityProductCheck_iff (p : ScrapedProduct) :
    qualityProductCheck p = true ↔ qualityProductOk p := by
  rw [qualityProductCheck, ite_false_step, ite_false_step, ite_false_step, ite_false_step,
    ite_false_step]
  simp only [and_true, qualityProductOk]
  constructor
  · rintro ⟨h1, h2, h3, h4, h5⟩
    push_neg at h1 h2 h3 h4 h5
    refine ⟨h1.2, h2.2, h3.1, h3.2, ?_, ?_⟩
    · rcases le_or_lt p.rating 0 with hr | hr
      · exact Or.inl hr
      · exact Or.inr (h4 hr)
    · rcases Nat.eq_zero_or_pos p.reviewCount with hv | hv
      · exact Or.inl hv
      · exact Or.inr (h5 hv)
  · rintro ⟨ha, ht, hp1, hp2, hr, hv⟩
    refine ⟨?_, ?_, ?_, ?_, ?_⟩
    · rintro (heq | hlen)
      · rw [heq] at ha; exact absurd ha (by decide)
      · exact hlen ha
    · rintro (heq | hlen)
      · rw [heq] at ht; exact absurd ht (by decide)
      · omega
    · rintro (h | h) <;> linarith
    · rintro ⟨hr0, hrlt⟩
      rcases hr with h | h <;> linarith
    · rintro ⟨hv0, hvlt⟩
      rcases hv with h | h <;> omega

/-- A community deal with an unparsed price (0): every other constraint
passes, so the price-band check is skipped. -/
def dealPriceZero : CommunityDeal :=
  { id := "pelando-smartwatchxcomgps-0", title := "Smartwatch X com GPS",
    price := 0, originalPrice := none, discount := 30,
    dealUrl := "https://pelando.com.br/d/1",
    amazonUrl := some "https://amazon.com.br/dp/B000000001",
    asin := some "B000000001", imageUrl := "", upvotes := 12,
    category := "Geral", normalizedCategory := "electronics", source := "Pelando",
    dealScore := 55, scrapedAt := 0 }

def dealDisc5 : CommunityDeal :=
  { dealPriceZero with
    id := "pelando-fonebluetoothpremium-100"
    title := "Fone Bluetooth Premium"
    price := 100
    discount := 5
    asin := some "B000000002" }

def dealDisc10 : CommunityDeal :=
  { dealDisc5 with discount := 10, asin := some "B000000003" }

lemma dealPriceZero_check : qualityDealCheck dealPriceZero = true := by
  rw [qualityDealCheck_iff]
  refine ⟨by decide, Or.inl ?_, by decide, by decide⟩
  simp only [dealPriceZero]
  norm_num

/-- C4, counterexample: the claim says a listing is kept only if its
price lies inside the configured [20, 3000] band, but
`filterQualityDeals` applies the band only when `price > 0`: a listing
with `price = 0` (outside the band) is kept. -/
theorem c4_price_zero_kept_counterexample :
    filterQualityDeals [dealPriceZero] = [dealPriceZero] ∧
      ¬(20 ≤ dealPriceZero.price ∧ dealPriceZero.price ≤ 3000) := by
  constructor
  · simp [filterQualityDeals, List.filter, dealPriceZero_check]
  · rintro ⟨h, _⟩
    have h0 : dealPriceZero.price = 0 := by simp [dealPriceZero]
    rw [h0] at h
    norm_num at h

/-- C4, amended: each filter keeps a listing iff it passes every hard
constraint that the code applies, where checks on absent signals are
skipped: the community variant exempts non-positive prices from the
[20, 3000] price band; the Amazon variant also requires a 10-character
ASIN, exempts `rating = 0` and `reviewCount = 0` from their floors, and
has no discount floor at all.  The floors are boundary-inclusive: with
the community discount floor 10, discount 5 is excluded and discount 10
is included. -/
theorem c4_quality_filters_amended :
    (∀ (l : List CommunityDeal) (d : CommunityDeal),
        d ∈ filterQualityDeals l ↔ d ∈ l ∧ qualityDealOk d) ∧
    (∀ (l : List ScrapedProduct) (p : ScrapedProduct),
        p ∈ filterQualityProducts l ↔ p ∈ l ∧ qualityProductOk p) ∧
    filterQualityDeals [dealDisc5] = [] ∧
    filterQualityDeals [dealDisc10] = [dealDisc10] := by
  refine ⟨?_, ?_, ?_, ?_⟩
  · intro l d
    simp only [filterQualityDeals, List.mem_filter, qualityDealCheck_iff]
  · intro l p
    simp only [filterQualityProducts, List.mem_filter, qualityProductCheck_iff]
  · have h5 : qualityDealCheck dealDisc5 = false := by
      rw [Bool.eq_false_iff]
      intro hc
      rw [qualityDealCheck_iff] at hc
      have hd := hc.2.2.2
      have he : dealDisc5.discount = 5 := by decide
      rw [he, MIN_DISCOUNT] at hd
      omega
    simp [filterQualityDeals, List.filter, h5]
  · have h10 : qualityDealCheck dealDisc10 = true := by
      rw [qualityDealCheck_iff]
      refine ⟨by decide, Or.inr ⟨?_, ?_⟩, by decide, by decide⟩ <;>
        · simp only [dealDisc10, dealDisc5, dealPriceZero]
          norm_num
    simp [filterQualityDeals, List.filter, h10]

/-! ## Claim C2 — deduplication keeps the best-scoring, first-seen listing -/

/-- The running best of a dedup group: strict improvement replaces,
ties keep the earlier element (the fold inside the dedup loop). -/
def pickBest {α : Type} (score : α → ℤ) (b : α) (gs : List α) : α :=
  gs.foldl (fun b e => if score e > score b then e else b) b

/-- The `pickBest` lifted to a possibly-absent stored value. -/
def groupBest {α : Type} (score : α → ℤ) : Option α → List α → Option α
  | b0, [] => b0
  | some b, e :: es => groupBest score (some (if score e > score b then e else b)) es
  | none, e :: es => groupBest score (some e) es

lemma jsMapGet_set_self {α : Type} (m : List (String × α)) (k : String) (v : α) :
    jsMapGet (jsMapSet m k v) k = some v := by
  induction m with
  | nil => simp [jsMapSet, jsMapGet]
  | cons e rest ih =>
    obtain ⟨k', v'⟩ := e
    by_cases h : k' = k
    · simp [jsMapSet, jsMapGet, h]
    · simp [jsMapSet, jsMapGet, h, ih]

lemma jsMapGet_set_ne {α : Type} (m : List (String × α)) {k' k : String} (v : α)
    (h : k' ≠ k) : jsMapGet (jsMapSet m k' v) k = jsMapGet m k := by
  induction m with
  | nil => simp [jsMapSet, jsMapGet, h]
  | cons e rest ih =>
    obtain ⟨k2, v2⟩ := e
    by_cases h2 : k2 = k'
    · subst h2
      simp [jsMapSet, jsMapGet, h]
    · by_cases h3 : k2 = k <;> simp [jsMapSet, jsMapGet, h2, h3, ih, Ne.symm h]

/-- Well-formedness of the modelled `Map`: entries are stored under their
own key, and keys are unique. -/
def MapWF {α : Type} (key : α → String) (m : List (String × α)) : Prop :=
  (∀ e ∈ m, key e.2 = e.1) ∧ (m.map Prod.fst).Nodup

lemma mem_jsMapSet {α : Type} {m : List (String × α)} {k : String} {v : α} {e : String × α}
    (he : e ∈ jsMapSet m k v) : e = (k, v) ∨ e ∈ m := by
  induction m with
  | nil => simpa [jsMapSet] using he
  | cons e' rest ih =>
    obtain ⟨k2, v2⟩ := e'
    by_cases h2 : k2 = k
    · subst h2
      rcases (by simpa [jsMapSet] using he : e = (k2, v) ∨ e ∈ rest) with h | h
      · exact Or.inl h
      · exact Or.inr (List.mem_cons_of_mem _ h)
    · rcases (by simpa [jsMapSet, h2] using he : e = (k2, v2) ∨ e ∈ jsMapSet rest k v) with h | h
      · exact Or.inr (by simp [h])
      · rcases ih h with h' | h'
        · exact Or.inl h'
        · exact Or.inr (List.mem_cons_of_mem _ h')

lemma jsMapSet_map_fst {α : Type} (m : List (String × α)) (k : String) (v : α) :
    (jsMapSet m k v).map Prod.fst =
      if k ∈ m.map Prod.fst then m.map Prod.fst else m.map Prod.fst ++ [k] := by
  induction m with
  | nil => simp [jsMapSet]
  | cons e rest ih =>
    obtain ⟨k2, v2⟩ := e
    by_cases h2 : k2 = k
    · subst h2
      simp [jsMapSet]
    · simp only [jsMapSet, if_neg h2, List.map_cons, ih]
      by_cases hmem : k ∈ rest.map Prod.fst
      · simp [hmem, Ne.symm h2]
      · simp [hmem, Ne.symm h2]

lemma mapWF_set {α : Type} {key : α → String} {m : List (String × α)} {k : String} {v : α}
    (hm : MapWF key m) (hv : key v = k) : MapWF key (jsMapSet m k v) := by
  constructor
  · intro e he
    rcases mem_jsMapSet he with h | h
    · rw [h]; exact hv
    · exact hm.1 e h
  · rw [jsMapSet_map_fst]
    by_cases hmem : k ∈ m.map Prod.fst
    · simpa [hmem] using hm.2
    · simp only [hmem, if_false]
      rw [List.nodup_append]
      exact ⟨hm.2, List.nodup_singleton _, by simpa using fun h => hmem h⟩

lemma mapWF_dedupStep {α : Type} {key : α → String} {score : α → ℤ}
    {m : List (String × α)} (hm : MapWF key m) (d : α) :
    MapWF key (dedupStep key score m d) := by
  unfold dedupStep
  cases jsMapGet m (key d) with
  | none => exact mapWF_set hm rfl
  | some b =>
    by_cases h : score d > score b
    · simpa [h] using mapWF_set hm rfl
    · simpa [h] using hm

lemma mapWF_foldl {α : Type} {key : α → String} {score : α → ℤ} :
    ∀ (l : List α) (m : List (String × α)), MapWF key m →
      MapWF key (l.foldl (dedupStep key score) m)
  | [], _, hm => hm
  | d :: ls, _, hm => mapWF_foldl ls _ (mapWF_dedupStep hm d)

lemma foldl_dedupStep_get {α : Type} (key : α → String) (score : α → ℤ) (k : String) :
    ∀ (l : List α) (m : List (String × α)), MapWF key m →
      jsMapGet (l.foldl (dedupStep key score) m) k =
        groupBest score (jsMapGet m k) (l.filter (fun d => key d == k)) := by
  intro l
  induction l with
  | nil => intro m _; simp [groupBest]
  | cons d ls ih =>
    intro m hm
    simp only [List.foldl_cons, List.filter_cons]
    by_cases hk : key d = k
    · rw [if_pos (by simpa using hk)]
      cases hget : jsMapGet m k with
      | none =>
        have hstep : dedupStep key score m d = jsMapSet m k d := by
          unfold dedupStep
          rw [hk, hget]
        rw [hstep, ih _ (mapWF_set hm hk), jsMapGet_set_self]
        rfl
      | some b =>
        have hstep : dedupStep key score m d =
            if score d > score b then jsMapSet m k d else m := by
          unfold dedupStep
          rw [hk, hget]
        by_cases hcmp : score d > score b
        · rw [hstep, if_pos hcmp, ih _ (mapWF_set hm hk), jsMapGet_set_self]
          simp [groupBest, hcmp]
        · rw [hstep, if_neg hcmp, ih _ hm, hget]
          simp [groupBest, hcmp]
    · rw [if_neg (by simpa using hk)]
      cases hget : jsMapGet m (key d) with
      | none =>
        have hstep : dedupStep key score m d = jsMapSet m (key d) d := by
          unfold dedupStep
          rw [hget]
        rw [hstep, ih _ (mapWF_set hm rfl), jsMapGet_set_ne _ _ hk]
      | some b =>
        have hstep : dedupStep key score m d =
            if score d > score b then jsMapSet m (key d) d else m := by
          unfold dedupStep
          rw [hget]
        by_cases hcmp : score d > score b
        · rw [hstep, if_pos hcmp, ih _ (mapWF_set hm rfl), jsMapGet_set_ne _ _ hk]
        · rw [hstep, if_neg hcmp, ih _ hm]

lemma values_filter_of_WF {α : Type} (key : α → String) (k : String) :
    ∀ (m : List (String × α)), MapWF key m →
      (m.map Prod.snd).filter (fun d => key d == k) = (jsMapGet m k).toList := by
  intro m
  induction m with
  | nil => intro _; simp [jsMapGet]
  | cons e rest ih =>
    obtain ⟨k', v⟩ := e
    intro hm
    have hkey : key v = k' := hm.1 (k', v) (by simp)
    have hrest : MapWF key rest :=
      ⟨fun e he => hm.1 e (List.mem_cons_of_mem _ he), (List.nodup_cons.mp hm.2).2⟩
    simp only [List.map_cons, List.filter_cons, jsMapGet]
    by_cases h : k' = k
    · subst h
      rw [if_pos (by simpa using hkey), if_pos rfl]
      have hnot : ∀ d ∈ rest.map Prod.snd, ¬((key d == k') = true) := by
        intro d hd
        obtain ⟨⟨kd, vd⟩, hmem, hvd⟩ := List.mem_map.mp hd
        have : key vd = kd := hm.1 (kd, vd) (List.mem_cons_of_mem _ hmem)
        have hkd : kd ≠ k' := by
          intro hkk
          exact (List.nodup_cons.mp hm.2).1 (hkk ▸ List.mem_map.mpr ⟨(kd, vd), hmem, rfl⟩)
        simp only [← hvd, this]
        simpa using hkd
      rw [List.filter_eq_nil_iff.mpr hnot]
      rfl
    · rw [if_neg (by simp [hkey, h]), if_neg h]
      exact ih hrest

/-- The dedup fold, as one characterisation: in the output, the listings
stored under key `k` are exactly the `groupBest` of the input's
`k`-group. -/
lemma dedupBy_filter_key {α : Type} (key : α → String) (score : α → ℤ)
    (l : List α) (k : String) :
    (dedupBy key score l).filter (fun d => key d == k) =
      (groupBest score none (l.filter (fun d => key d == k))).toList := by
  unfold dedupBy
  rw [values_filter_of_WF key k _ (mapWF_foldl l [] ⟨by simp, by simp⟩),
    foldl_dedupStep_get key score k l [] ⟨by simp, by simp⟩]
  rfl

lemma pickBest_cons {α : Type} (score : α → ℤ) (g e : α) (es : List α) :
    pickBest score g (e :: es) = pickBest score (if score e > score g then e else g) es := by
  simp [pickBest]

lemma groupBest_some_eq {α : Type} (score : α → ℤ) :
    ∀ (gs : List α) (b : α), groupBest score (some b) gs = some (pickBest score b gs)
  | [], b => by simp [groupBest, pickBest]
  | e :: es, b => by
    rw [groupBest, groupBest_some_eq score es, pickBest_cons]

lemma find?_cons_eq {α : Type} (p : α → Bool) (a : α) (l : List α) :
    List.find? p (a :: l) = if p a = true then some a else List.find? p l := by
  by_cases h : p a = true
  · rw [List.find?_cons_of_pos _ h, if_pos h]
  · rw [List.find?_cons_of_neg _ h, if_neg h]

lemma pickBest_spec {α : Type} (score : α → ℤ) :
    ∀ (gs : List α) (g : α),
      pickBest score g gs ∈ g :: gs ∧
      (∀ e ∈ g :: gs, score e ≤ score (pickBest score g gs)) ∧
      (g :: gs).find? (fun e => score e == score (pickBest score g gs)) =
        some (pickBest score g gs) := by
  intro gs
  induction gs with
  | nil =>
    intro g
    refine ⟨by simp [pickBest], ?_, ?_⟩
    · intro e he
      rw [List.mem_singleton.mp he]
      simp [pickBest]
    · simp [pickBest, List.find?]
  | cons e es ih =>
    intro g
    rw [pickBest_cons]
    set g' := if score e > score g then e else g with hg'
    obtain ⟨hmem, hbound, hfind⟩ := ih g'
    set kept := pickBest score g' es with hkept
    have hgg' : score g ≤ score g' := by
      rw [hg']
      split_ifs with h
      · exact le_of_lt h
      · exact le_refl _
    have heg' : score e ≤ score g' := by
      rw [hg']
      split_ifs with h
      · exact le_refl _
      · exact not_lt.mp h
    have hkb : score g' ≤ score kept := hbound g' (List.mem_cons_self _ _)
    refine ⟨?_, ?_, ?_⟩
    · rcases List.mem_cons.mp hmem with h | h
      · rw [h, hg']
        split_ifs
        · exact List.mem_cons_of_mem _ (List.mem_cons_self _ _)
        · exact List.mem_cons_self _ _
      · exact List.mem_cons_of_mem _ (List.mem_cons_of_mem _ h)
    · intro x hx
      rcases List.mem_cons.mp hx with hx | hx
      · rw [hx]
        exact le_trans hgg' hkb
      · rcases List.mem_cons.mp hx with hx | hx
        · rw [hx]
          exact le_trans heg' hkb
        · exact hbound x (List.mem_cons_of_mem _ hx)
    · simp only [find?_cons_eq, beq_iff_eq] at hfind ⊢
      by_cases hcmp : score e > score g
      · have hg'e : g' = e := by rw [hg', if_pos hcmp]
        have hek : score e ≤ score kept := le_trans heg' hkb
        rw [if_neg (by omega : ¬score g = score kept)]
        rw [hg'e] at hfind
        exact hfind
      · have hg'g : g' = g := by rw [hg', if_neg hcmp]
        rw [hg'g] at hfind
        by_cases hpg : score g = score kept
        · rw [if_pos hpg] at hfind ⊢
          exact hfind
        · rw [if_neg hpg] at hfind ⊢
          have hglt : score g < score kept := lt_of_le_of_ne (le_trans hgg' hkb) hpg
          have hes : score e ≤ score g := by
            rw [hg'g] at heg'
            exact heg'
          rw [if_neg (by omega : ¬score e = score kept)]
          exact hfind

def deal40 : CommunityDeal :=
  { dealPriceZero with
    id := "pelando-echodot5agerao-200"
    title := "Echo Dot 5a Geracao"
    price := 200
    discount := 20
    asin := some "B09B8V1LZ3"
    dealScore := 40 }

def deal70 : CommunityDeal :=
  { deal40 with title := "Echo Dot 5a Geracao Alexa", dealScore := 70 }

def prod40 : ScrapedProduct :=
  { asin := "B09B8V1LZ3", title := "Echo Dot 5a Geracao", price := 200,
    originalPrice := none, discount := 20, imageUrl := "",
    productUrl := "https://www.amazon.com.br/dp/B09B8V1LZ3", rating := 4,
    reviewCount := 100, category := "electronics", normalizedCategory := "electronics",
    dealScore := 40, source := SourceType.deals, scrapedAt := 0 }

def prod70 : ScrapedProduct :=
  { prod40 with dealScore := 70 }

/-- C2: deduplication groups listings by identifier (ASIN when present,
else the synthetic id; for products the ASIN field) and keeps per group
exactly the `groupBest` listing — the first-seen listing of maximal
score, replaced only on strictly higher score (ties keep the first
seen, witnessed by `find?` returning the kept listing as the group's
first listing of that score).  Two candidates with the same identifier
and scores 40 and 70 yield exactly the one listing with score 70. -/
theorem c2_dedup_best_score_first_seen :
    (∀ (l : List CommunityDeal) (k : String),
        (deduplicateDeals l).filter (fun d => dealKey d == k) =
          (groupBest (fun d => d.dealScore) none
            (l.filter (fun d => dealKey d == k))).toList) ∧
    (∀ (l : List ScrapedProduct) (k : String),
        (deduplicateProducts l).filter (fun p => p.asin == k) =
          (groupBest (fun p => p.dealScore) none
            (l.filter (fun p => p.asin == k))).toList) ∧
    (∀ (g : CommunityDeal) (gs : List CommunityDeal),
        pickBest (fun d => d.dealScore) g gs ∈ g :: gs ∧
        (∀ e ∈ g :: gs, e.dealScore ≤ (pickBest (fun d => d.dealScore) g gs).dealScore) ∧
        (g :: gs).find?
            (fun e => e.dealScore == (pickBest (fun d => d.dealScore) g gs).dealScore) =
          some (pickBest (fun d => d.dealScore) g gs)) ∧
    (∀ (g : CommunityDeal) (gs : List CommunityDeal),
        groupBest (fun d => d.dealScore) (some g) gs =
          some (pickBest (fun d => d.dealScore) g gs)) ∧
    deduplicateDeals [deal40, deal70] = [deal70] ∧
    deduplicateProducts [prod40, prod70] = [prod70] := by
  refine ⟨?_, ?_, ?_, ?_, ?_, ?_⟩
  · intro l k
    exact dedupBy_filter_key dealKey (fun d => d.dealScore) l k
  · intro l k
    exact dedupBy_filter_key (fun p => p.asin) (fun p => p.dealScore) l k
  · intro g gs
    exact pickBest_spec (fun d => d.dealScore) gs g
  · intro g gs
    exact groupBest_some_eq (fun d => d.dealScore) gs g
  · decide
  · decide

/-- Witness for C2's bounded-quantifier conjunct at concrete input. -/
theorem c2_dedup_witness :
    deal40.dealScore ≤ (pickBest (fun d => d.dealScore) deal40 [deal70]).dealScore :=
  (c2_dedup_best_score_first_seen.2.2.1 deal40 [deal70]).2.1 deal40
    (List.mem_cons_self _ _)

/-! ## Claim C1 — ranking: sorted, truncated, stable -/

lemma mem_insertDesc {α : Type} (score : α → ℤ) (d : α) :
    ∀ (l : List α) (b : α), b ∈ insertDesc score d l ↔ b = d ∨ b ∈ l := by
  intro l
  induction l with
  | nil => intro b; simp [insertDesc]
  | cons e es ih =>
    intro b
    by_cases h : score e > score d
    · rw [insertDesc, if_pos h]
      simp only [List.mem_cons, ih]
      tauto
    · rw [insertDesc, if_neg h]
      simp only [List.mem_cons]

lemma sorted_insertDesc {α : Type} (score : α → ℤ) (d : α) :
    ∀ (l : List α), l.Sorted (fun a b => score b ≤ score a) →
      (insertDesc score d l).Sorted (fun a b => score b ≤ score a) := by
  intro l
  induction l with
  | nil => intro _; simp [insertDesc]
  | cons e es ih =>
    intro hl
    rw [List.sorted_cons] at hl
    by_cases h : score e > score d
    · rw [insertDesc, if_pos h, List.sorted_cons]
      constructor
      · intro b hb
        rcases (mem_insertDesc score d es b).mp hb with hb | hb
        · rw [hb]; exact le_of_lt h
        · exact hl.1 b hb
      · exact ih hl.2
    · rw [insertDesc, if_neg h, List.sorted_cons]
      constructor
      · intro b hb
        rcases List.mem_cons.mp hb with hb | hb
        · rw [hb]; exact not_lt.mp h
        · exact le_trans (hl.1 b hb) (not_lt.mp h)
      · exact List.sorted_cons.mpr hl

lemma sorted_sortByScoreDesc {α : Type} (score : α → ℤ) :
    ∀ (l : List α), (sortByScoreDesc score l).Sorted (fun a b => score b ≤ score a)
  | [] => by simp [sortByScoreDesc]
  | d :: ds => sorted_insertDesc score d _ (sorted_sortByScoreDesc score ds)

lemma filter_insertDesc {α : Type} (score : α → ℤ) (d : α) (s : ℤ) :
    ∀ (l : List α),
      (insertDesc score d l).filter (fun x => score x == s) =
        if score d = s then d :: l.filter (fun x => score x == s)
        else l.filter (fun x => score x == s) := by
  intro l
  induction l with
  | nil =>
    rw [insertDesc]
    by_cases h : score d = s
    · rw [if_pos h]
      simp [List.filter_cons, beq_iff_eq, h]
    · rw [if_neg h]
      simp [List.filter_cons, beq_iff_eq, h]
  | cons e es ih =>
    by_cases h : score e > score d
    · rw [insertDesc, if_pos h]
      by_cases hd : score d = s
      · rw [if_pos hd]
        have he : ¬(score e = s) := by omega
        simp only [List.filter_cons, beq_iff_eq]
        rw [if_neg (by simpa using he), if_neg (by simpa using he), ih, if_pos hd]
      · rw [if_neg hd]
        simp only [List.filter_cons]
        rw [ih, if_neg hd]
    · rw [insertDesc, if_neg h]
      by_cases hd : score d = s
      · rw [if_pos hd]
        simp only [List.filter_cons, beq_iff_eq]
        rw [if_pos (by simpa using hd)]
      · rw [if_neg hd]
        simp only [List.filter_cons, beq_iff_eq]
        rw [if_neg (by simpa using hd)]

lemma filter_sortByScoreDesc {α : Type} (score : α → ℤ) (s : ℤ) :
    ∀ (l : List α),
      (sortByScoreDesc score l).filter (fun x => score x == s) =
        l.filter (fun x => score x == s) := by
  intro l
  induction l with
  | nil => simp [sortByScoreDesc]
  | cons d ds ih =>
    rw [sortByScoreDesc, filter_insertDesc]
    by_cases hd : score d = s
    · rw [if_pos hd, ih]
      simp only [List.filter_cons, beq_iff_eq]
      rw [if_pos (by simpa using hd)]
    · rw [if_neg hd, ih]
      simp only [List.filter_cons, beq_iff_eq]
      rw [if_neg (by simpa using hd)]

def dealA : CommunityDeal :=
  { dealPriceZero with
    id := "pelando-panelaeletricapro-100"
    title := "Panela Eletrica Pro 5L"
    price := 100
    discount := 25
    asin := some "B000000111"
    dealScore := 40 }

def dealB : CommunityDeal :=
  { dealA with
    id := "pelando-cafeteiraturbomax-100"
    title := "Cafeteira Turbo Max 220v"
    asin := some "B000000222"
    dealScore := 70 }

def dealC : CommunityDeal :=
  { dealA with
    id := "pelando-panelaeletricapro2-100"
    title := "Panela Eletrica Pro 5L v2"
    asin := some "B000000111"
    dealScore := 70 }

/-- C1, counterexample: `dealB` is discovered before `dealC` and both end
with score 70, yet the output lists `dealC` first: deduplication replaces
the earlier-positioned `dealA` (same identifier as `dealC`, lower score)
by `dealC` while keeping `dealA`'s original map position, so equal-score
listings do not appear in discovery order. -/
theorem c1_discovery_order_counterexample :
    postProcessDeals [dealA, dealB, dealC] 20 = [dealC, dealB] ∧
      dealB.dealScore = dealC.dealScore ∧ dealB ≠ dealC := by
  refine ⟨by decide, by decide, by decide⟩

/-- C1, amended: for every input list and limit, the post-processing of
`discoverCommunityDeals` (and likewise `discoverProducts`) returns a
list sorted non-increasing by `dealScore` with at most `limit` elements
(default 20), and the sort is stable with respect to its own input — the
deduplicated, quality-filtered list: for every score, the sorted list
restricted to that score equals that input restricted to it.  (Equal
score listings can still leave discovery order, because dedup may put a
later-discovered winner at its group's first-seen position.) -/
theorem c1_rank_sorted_truncated_stable_amended :
    (∀ (allDeals : List CommunityDeal) (limit : ℕ),
        (postProcessDeals allDeals limit).Sorted
          (fun a b => b.dealScore ≤ a.dealScore) ∧
        (postProcessDeals allDeals limit).length ≤ limit ∧
        (∀ s : ℤ,
          (sortByScoreDesc (fun d => d.dealScore)
              (filterQualityDeals (deduplicateDeals allDeals))).filter
              (fun d => d.dealScore == s) =
            (filterQualityDeals (deduplicateDeals allDeals)).filter
              (fun d => d.dealScore == s))) ∧
    (∀ (allProducts : List ScrapedProduct) (limit : ℕ),
        (postProcessProducts allProducts limit).Sorted
          (fun a b => b.dealScore ≤ a.dealScore) ∧
        (postProcessProducts allProducts limit).length ≤ limit ∧
        (∀ s : ℤ,
          (sortByScoreDesc (fun p => p.dealScore)
              (filterQualityProducts (deduplicateProducts allProducts))).filter
              (fun p => p.dealScore == s) =
            (filterQualityProducts (deduplicateProducts allProducts)).filter
              (fun p => p.dealScore == s))) := by
  constructor
  · intro allDeals limit
    refine ⟨?_, ?_, ?_⟩
    · exact List.Pairwise.sublist (List.take_sublist _ _)
        (sorted_sortByScoreDesc (fun (d : CommunityDeal) => d.dealScore) _)
    · rw [postProcessDeals, List.length_take]
      exact min_le_left _ _
    · intro s
      exact filter_sortByScoreDesc (fun (d : CommunityDeal) => d.dealScore) s _
  · intro allProducts limit
    refine ⟨?_, ?_, ?_⟩
    · exact List.Pairwise.sublist (List.take_sublist _ _)
        (sorted_sortByScoreDesc (fun (p : ScrapedProduct) => p.dealScore) _)
    · rw [postProcessProducts, List.length_take]
      exact min_le_left _ _
    · intro s
      exact filter_sortByScoreDesc (fun (p : ScrapedProduct) => p.dealScore) s _

/-! ## Deal score (`calculateDealScore`, community and Amazon variants)

`Math.log10 x` is `Real.logb 10 x`; the `|| 0` / `|| "other"` defaults of
the `Partial<...>` parameter are the identity on the total record model
except for the empty-string category, which is modelled explicitly. -/

/-- The `calculateDealScore` (community): discount, upvotes (log scale),
category weight, and a +15 bonus for a (truthy) ASIN. -/
noncomputable def calculateDealScore (deal : CommunityDeal) : ℤ :=
  let discount : ℝ := (deal.discount : ℝ)
  let upvotes : ℝ := (deal.upvotes : ℝ)
  let category : String :=
    if deal.normalizedCategory = "" then "other" else deal.normalizedCategory
  let discountScore : ℝ := min (discount / 40 * 100) 100
  let upvoteScore : ℝ := min (Real.logb 10 (max upvotes 1 + 1) / 2 * 100) 100
  let categoryScore : ℝ := (categoryWeight category : ℝ)
  let asinBonus : ℝ :=
    match deal.asin with
    | some a => if a = "" then 0 else 15
    | none => 0
  round (min (discountScore * 0.35 + upvoteScore * 0.30 + categoryScore * 0.20 + asinBonus) 100)

/-- The `calculateDealScore` (Amazon): discount, rating above the 3.0 floor,
reviews (log scale against 5000), category weight, +10 for the deals
feed. -/
noncomputable def calculateDealScoreAmz (product : ScrapedProduct) : ℤ :=
  let discount : ℝ := (product.discount : ℝ)
  let rating : ℝ := (product.rating : ℝ)
  let reviews : ℝ := (product.reviewCount : ℝ)
  let category : String :=
    if product.normalizedCategory = "" then "other" else product.normalizedCategory
  let discountScore : ℝ := min (discount / 40 * 100) 100
  let ratingScore : ℝ := max ((rating - 3) / 2 * 100) 0
  let reviewScore : ℝ := min (Real.logb 10 (max reviews 1) / Real.logb 10 5000 * 100) 100
  let categoryScore : ℝ := (categoryWeightAmz category : ℝ)
  let sourceBonus : ℝ := if product.source = SourceType.deals then 10 else 0
  round (min (discountScore * 0.30 + ratingScore * 0.25 + reviewScore * 0.20 +
    categoryScore * 0.15 + sourceBonus) 100)

/-! ## Claim C3 — the score is an integer in [0, 100] -/

lemma round_nonneg_of_nonneg {x : ℝ} (hx : 0 ≤ x) : 0 ≤ round x := by
  rw [round_eq]
  exact Int.floor_nonneg.mpr (by linarith)

lemma round_le_hundred {x : ℝ} (hx : x ≤ 100) : round x ≤ 100 := by
  rw [round_eq]
  have h1 : ⌊x + 1 / 2⌋ ≤ ⌊(100 : ℝ) + 1 / 2⌋ := Int.floor_le_floor (by linarith)
  have h2 : ⌊(100 : ℝ) + 1 / 2⌋ = 100 := by
    rw [Int.floor_eq_iff]
    norm_num
  omega

lemma categoryWeight_nonneg (c : String) : (0 : ℚ) ≤ categoryWeight c := by
  rw [categoryWeight]
  split_ifs <;> norm_num

lemma categoryWeightAmz_nonneg (c : String) : (0 : ℚ) ≤ categoryWeightAmz c := by
  rw [categoryWeightAmz]
  split_ifs <;> norm_num

/-- C3: both score variants always return an integer in [0, 100] — never
negative — for any listing with non-negative discount (upvotes, rating
and review values are unconstrained: their sub-scores are clamped). -/
theorem c3_score_in_range (d : CommunityDeal) (p : ScrapedProduct)
    (hd : 0 ≤ d.discount) (hp : 0 ≤ p.discount) :
    0 ≤ calculateDealScore d ∧ calculateDealScore d ≤ 100 ∧
      0 ≤ calculateDealScoreAmz p ∧ calculateDealScoreAmz p ≤ 100 := by
  have hd' : (0 : ℝ) ≤ (d.discount : ℝ) := by exact_mod_cast hd
  have hp' : (0 : ℝ) ≤ (p.discount : ℝ) := by exact_mod_cast hp
  refine ⟨?_, ?_, ?_, ?_⟩
  · simp only [calculateDealScore]
    apply round_nonneg_of_nonneg
    apply le_min _ (by norm_num)
    have h1 : (0 : ℝ) ≤ min ((d.discount : ℝ) / 40 * 100) 100 :=
      le_min (by positivity) (by norm_num)
    have h2 : (0 : ℝ) ≤ min (Real.logb 10 (max (d.upvotes : ℝ) 1 + 1) / 2 * 100) 100 := by
      refine le_min (mul_nonneg (div_nonneg ?_ (by norm_num)) (by norm_num)) (by norm_num)
      refine Real.logb_nonneg (by norm_num) ?_
      have := le_max_right (d.upvotes : ℝ) 1
      linarith
    have h3 : (0 : ℝ) ≤ ((categoryWeight
        (if d.normalizedCategory = "" then "other" else d.normalizedCategory) : ℚ) : ℝ) := by
      exact_mod_cast categoryWeight_nonneg _
    have h4 : (0 : ℝ) ≤ (match d.asin with
        | some a => if a = "" then (0 : ℝ) else 15
        | none => 0) := by
      cases d.asin with
      | none => norm_num
      | some a => by_cases ha : a = "" <;> norm_num [ha]
    have m1 : (0 : ℝ) ≤ min ((d.discount : ℝ) / 40 * 100) 100 * 0.35 :=
      mul_nonneg h1 (by norm_num)
    have m2 : (0 : ℝ) ≤ min (Real.logb 10 (max (d.upvotes : ℝ) 1 + 1) / 2 * 100) 100 * 0.30 :=
      mul_nonneg h2 (by norm_num)
    have m3 : (0 : ℝ) ≤ ((categoryWeight
        (if d.normalizedCategory = "" then "other" else d.normalizedCategory) : ℚ) : ℝ) * 0.20 :=
      mul_nonneg h3 (by norm_num)
    linarith
  · simp only [calculateDealScore]
    exact round_le_hundred (min_le_right _ _)
  · simp only [calculateDealScoreAmz]
    apply round_nonneg_of_nonneg
    apply le_min _ (by norm_num)
    have h1 : (0 : ℝ) ≤ min ((p.discount : ℝ) / 40 * 100) 100 :=
      le_min (by positivity) (by norm_num)
    have h2 : (0 : ℝ) ≤ max (((p.rating : ℝ) - 3) / 2 * 100) 0 := le_max_right _ _
    have h3 : (0 : ℝ) ≤ min (Real.logb 10 (max (p.reviewCount : ℝ) 1) /
        Real.logb 10 5000 * 100) 100 := by
      refine le_min (mul_nonneg (div_nonneg ?_ ?_) (by norm_num)) (by norm_num)
      · exact Real.logb_nonneg (by norm_num) (le_max_right _ _)
      · exact le_of_lt (Real.logb_pos (by norm_num) (by norm_num))
    have h4 : (0 : ℝ) ≤ ((categoryWeightAmz
        (if p.normalizedCategory = "" then "other" else p.normalizedCategory) : ℚ) : ℝ) := by
      exact_mod_cast categoryWeightAmz_nonneg _
    have h5 : (0 : ℝ) ≤ (if p.source = SourceType.deals then (10 : ℝ) else 0) := by
      split_ifs <;> norm_num
    have m1 : (0 : ℝ) ≤ min ((p.discount : ℝ) / 40 * 100) 100 * 0.30 :=
      mul_nonneg h1 (by norm_num)
    have m2 : (0 : ℝ) ≤ max (((p.rating : ℝ) - 3) / 2 * 100) 0 * 0.25 :=
      mul_nonneg h2 (by norm_num)
    have m3 : (0 : ℝ) ≤ min (Real.logb 10 (max (p.reviewCount : ℝ) 1) /
        Real.logb 10 5000 * 100) 100 * 0.20 :=
      mul_nonneg h3 (by norm_num)
    have m4 : (0 : ℝ) ≤ ((categoryWeightAmz
        (if p.normalizedCategory = "" then "other" else p.normalizedCategory) : ℚ) : ℝ) * 0.15 :=
      mul_nonneg h4 (by norm_num)
    linarith
  · simp only [calculateDealScoreAmz]
    exact round_le_hundred (min_le_right _ _)

/-- Witness for C3 at concrete listings. -/
theorem c3_score_in_range_witness :
    0 ≤ calculateDealScore dealPriceZero ∧ calculateDealScore dealPriceZero ≤ 100 ∧
      0 ≤ calculateDealScoreAmz prod40 ∧ calculateDealScoreAmz prod40 ≤ 100 :=
  c3_score_in_range dealPriceZero prod40 (by decide) (by decide)

/-! ## Claim C9 — which fields the score actually depends on -/

def c9dNoAsin : CommunityDeal :=
  { dealPriceZero with
    id := "pelando-mousegamerrgbpro-120"
    title := "Mouse Gamer RGB Pro Sem Fio"
    price := 120
    discount := 40
    upvotes := 99
    normalizedCategory := "other"
    asin := none
    dealScore := 0 }

def c9dWithAsin : CommunityDeal :=
  { c9dNoAsin with
    id := "B01N5IB20Q"
    title := "Titulo Completamente Diferente Aqui"
    price := 777
    originalPrice := some 999
    dealUrl := "https://promobit.com.br/p/2"
    amazonUrl := some "https://amazon.com.br/dp/B01N5IB20Q"
    asin := some "B01N5IB20Q"
    imageUrl := "https://img/x.jpg"
    category := "Informatica"
    scrapedAt := 42 }

lemma logb_ten_hundred : Real.logb 10 (100 : ℝ) = 2 := by
  have h100 : (100 : ℝ) = (10 : ℝ) ^ (2 : ℝ) := by
    rw [show (2 : ℝ) = ((2 : ℕ) : ℝ) by norm_num, Real.rpow_natCast]
    norm_num
  rw [h100, Real.logb_rpow (by norm_num) (by norm_num)]

/-- C9, counterexample: two community deals agreeing on discount,
upvotes, canonical category and source — differing only in the other
fields, among them the ASIN — score 75 and 90: the +15 ASIN bonus makes
the community score depend on more than the claimed four fields. -/
theorem c9_asin_changes_score_counterexample :
    c9dNoAsin.discount = c9dWithAsin.discount ∧
      c9dNoAsin.upvotes = c9dWithAsin.upvotes ∧
      c9dNoAsin.normalizedCategory = c9dWithAsin.normalizedCategory ∧
      c9dNoAsin.source = c9dWithAsin.source ∧
      calculateDealScore c9dNoAsin = 75 ∧ calculateDealScore c9dWithAsin = 90 ∧
      calculateDealScore c9dNoAsin ≠ calculateDealScore c9dWithAsin := by
  have hmax : max ((99 : ℤ) : ℝ) 1 + 1 = (100 : ℝ) := by
    rw [max_eq_left (by norm_num)]
    norm_num
  have hw : ((categoryWeight "other" : ℚ) : ℝ) = 50 := by
    rw [show categoryWeight "other" = 50 from by decide]
    norm_num
  have h75 : calculateDealScore c9dNoAsin = 75 := by
    simp only [calculateDealScore, c9dNoAsin, dealPriceZero, ite_self]
    rw [hmax, logb_ten_hundred, hw]
    norm_num [round_eq, min_def]
  have h90 : calculateDealScore c9dWithAsin = 90 := by
    simp only [calculateDealScore, c9dWithAsin, c9dNoAsin, dealPriceZero, ite_self]
    rw [hmax, logb_ten_hundred, hw]
    rw [if_neg (by decide : ¬("B01N5IB20Q" : String) = "")]
    norm_num [round_eq, min_def]
  refine ⟨by decide, by decide, by decide, by decide, h75, h90, ?_⟩
  rw [h75, h90]
  decide

/-- C9, amended: the community score is a pure function of exactly
(discount, upvotes, canonical category, ASIN); the Amazon score is a
pure function of exactly (discount, rating, review count, canonical
category, source) — listings agreeing on those fields get equal scores
whatever their other fields (title, price, URLs, image, timestamp, ...)
are. -/
theorem c9_score_pure_function_amended :
    (∀ d1 d2 : CommunityDeal, d1.discount = d2.discount → d1.upvotes = d2.upvotes →
        d1.normalizedCategory = d2.normalizedCategory → d1.asin = d2.asin →
        calculateDealScore d1 = calculateDealScore d2) ∧
    (∀ p1 p2 : ScrapedProduct, p1.discount = p2.discount → p1.rating = p2.rating →
        p1.reviewCount = p2.reviewCount → p1.normalizedCategory = p2.normalizedCategory →
        p1.source = p2.source →
        calculateDealScoreAmz p1 = calculateDealScoreAmz p2) := by
  constructor
  · intro d1 d2 h1 h2 h3 h4
    simp only [calculateDealScore, h1, h2, h3, h4]
  · intro p1 p2 h1 h2 h3 h4 h5
    simp only [calculateDealScoreAmz, h1, h2, h3, h4, h5]

/-- Witness for C9's amended congruence at concrete listings that differ
in their other fields. -/
theorem c9_score_pure_function_witness :
    calculateDealScore deal40 = calculateDealScore deal70 :=
  c9_score_pure_function_amended.1 deal40 deal70 (by decide) (by decide) (by decide) (by decide)

/-! ## Fetcher and session orchestration

The network is abstracted as an oracle `net : ℕ → FetchOutcome` giving
the outcome of the attempt with a given session request index (`fail`
covers timeouts, non-2xx statuses and network errors, which the source
turns into thrown exceptions).  Delays and timestamps are timing and are
not modelled.  The request budget and retry count are parameters — the
spec's configuration surface — whose community `CONFIG` defaults are
`MAX_REQUESTS = 4`, `MAX_RETRIES = 2` (Amazon: 6 and 2). -/

inductive FetchOutcome where
  | ok (html : String)
  | fail (msg : String)
  deriving DecidableEq, Repr

/-- The `ScrapeStats` of the community scraper (the Amazon scraper's differs
only in naming its second field `productsFound`). -/
structure ScrapeStats where
  requestCount : ℕ
  dealsFound : ℕ
  errors : List String
  startTime : ℤ
  deriving DecidableEq, Repr

def failMsg (url msg : String) : String :=
  "Failed to fetch " ++ url ++ ": " ++ msg

/-- The retry `for` loop of `fetchWithRetry`: `remaining` counts attempts
still allowed; every attempt increments `stats.requestCount`; only the
last failed attempt appends to `stats.errors`. -/
def attemptLoop (net : ℕ → FetchOutcome) (url : String) :
    ℕ → ScrapeStats → Option String × ScrapeStats
  | 0, stats => (none, stats)
  | remaining + 1, stats =>
    let stats1 := { stats with requestCount := stats.requestCount + 1 }
    match net stats.requestCount with
    | FetchOutcome.ok html => (some html, stats1)
    | FetchOutcome.fail msg =>
      if remaining = 0 then
        (none, { stats1 with errors := stats1.errors ++ [failMsg url msg] })
      else attemptLoop net url remaining stats1

/-- The `fetchWithRetry` (community; the Amazon variant has the same budget
gate and per-attempt increment, plus a bot-detection branch): once the
session request count has reached the budget, return null at once. -/
def fetchWithRetry (maxRequests maxRetries : ℕ) (net : ℕ → FetchOutcome)
    (url : String) (stats : ScrapeStats) : Option String × ScrapeStats :=
  if stats.requestCount ≥ maxRequests then (none, stats)
  else attemptLoop net url maxRetries stats

/-- The source loop of `discoverCommunityDeals` (`discoverProducts` is
the same shape): break as soon as the budget is reached, otherwise
fetch.  It returns the final stats, the successfully fetched pages, and
the number of sources that were really attempted; the per-source
scraping of the returned HTML is downstream of this control flow and
does not touch the budget or the error log. -/
def discoverFetchLoop (maxRequests maxRetries : ℕ) (net : ℕ → FetchOutcome) :
    List String → ScrapeStats → ScrapeStats × List String × ℕ
  | [], stats => (stats, [], 0)
  | url :: rest, stats =>
    if stats.requestCount ≥ maxRequests then (stats, [], 0)
    else
      let fr := fetchWithRetry maxRequests maxRetries net url stats
      let next := discoverFetchLoop maxRequests maxRetries net rest fr.2
      (next.1, (match fr.1 with | some h => [h] | none => []) ++ next.2.1, next.2.2 + 1)

/-! ## Claim C6 — budget exhaustion skips silently -/

lemma discoverFetchLoop_allOk {net : ℕ → FetchOutcome} {maxRetries : ℕ}
    (hnet : ∀ i, ∃ h, net i = FetchOutcome.ok h) (hR : 1 ≤ maxRetries) (maxRequests : ℕ) :
    ∀ (srcs : List String) (stats : ScrapeStats),
      (discoverFetchLoop maxRequests maxRetries net srcs stats).1 =
        { stats with requestCount :=
            stats.requestCount + min (maxRequests - stats.requestCount) srcs.length } ∧
      (discoverFetchLoop maxRequests maxRetries net srcs stats).2.2 =
        min (maxRequests - stats.requestCount) srcs.length := by
  intro srcs
  induction srcs with
  | nil =>
    intro stats
    simp [discoverFetchLoop]
  | cons url rest ih =>
    intro stats
    by_cases hc : stats.requestCount ≥ maxRequests
    · have h0 : maxRequests - stats.requestCount = 0 := by omega
      rw [discoverFetchLoop]
      rw [if_pos hc]
      simp [h0]
    · obtain ⟨R', rfl⟩ : ∃ R', maxRetries = R' + 1 := ⟨maxRetries - 1, by omega⟩
      obtain ⟨h, hh⟩ := hnet stats.requestCount
      have hfetch : fetchWithRetry maxRequests (R' + 1) net url stats =
          (some h, { stats with requestCount := stats.requestCount + 1 }) := by
        rw [fetchWithRetry, if_neg hc]
        simp only [attemptLoop, hh]
      have hmin : min (maxRequests - stats.requestCount) (rest.length + 1) =
          min (maxRequests - (stats.requestCount + 1)) rest.length + 1 := by omega
      rw [discoverFetchLoop]
      rw [if_neg hc]
      simp only [hfetch]
      obtain ⟨ih1, ih2⟩ := ih { stats with requestCount := stats.requestCount + 1 }
      refine ⟨?_, ?_⟩
      · rw [ih1]
        simp only [List.length_cons, hmin]
        congr 1
        omega
      · rw [ih2]
        simp only [List.length_cons, hmin]

/-- C6, counterexample: with a budget of 2, 2 retries and 5 sources, a
network where every attempt fails gives the first source both budget
units (its two retries); only ONE source gets real fetch attempts and
FOUR are skipped — not the claimed "exactly 2 attempted, 3 skipped". -/
theorem c6_budget_example_counterexample :
    ((discoverFetchLoop 2 2 (fun _ => FetchOutcome.fail "socket hang up")
        ["https://www.pelando.com.br/search?q=amazon",
         "https://www.promobit.com.br/promocoes/loja/amazon",
         "https://u3", "https://u4", "https://u5"] ⟨0, 0, [], 0⟩).2.2 = 1) ∧
      (1 : ℕ) ≠ 2 := by
  refine ⟨by decide, by decide⟩

/-- C6, amended: once the session request count has reached the budget,
every further `fetchWithRetry` call returns null immediately — no
attempt, no error entry, stats untouched — and the orchestrator loop
skips all remaining sources without recording errors.  With a budget of
2 and 5 sources, AT MOST 2 sources get real fetch attempts, and exactly
2 (with the other 3 skipped silently and no error entries) when every
attempted fetch succeeds on its first attempt. -/
theorem c6_budget_skip_amended :
    (∀ (maxRequests maxRetries : ℕ) (net : ℕ → FetchOutcome) (url : String)
        (stats : ScrapeStats) (srcs : List String),
        maxRequests ≤ stats.requestCount →
        fetchWithRetry maxRequests maxRetries net url stats = (none, stats) ∧
        discoverFetchLoop maxRequests maxRetries net srcs stats = (stats, [], 0)) ∧
    (∀ (maxRetries : ℕ) (net : ℕ → FetchOutcome) (srcs : List String) (t : ℤ),
        1 ≤ maxRetries → (∀ i, ∃ h, net i = FetchOutcome.ok h) → srcs.length = 5 →
        (discoverFetchLoop 2 maxRetries net srcs ⟨0, 0, [], t⟩).2.2 = 2 ∧
        (discoverFetchLoop 2 maxRetries net srcs ⟨0, 0, [], t⟩).1.errors = []) := by
  constructor
  · intro maxRequests maxRetries net url stats srcs h
    constructor
    · rw [fetchWithRetry, if_pos h]
    · cases srcs with
      | nil => rw [discoverFetchLoop]
      | cons u rest => rw [discoverFetchLoop, if_pos h]
  · intro maxRetries net srcs t hR hnet hlen
    obtain ⟨h1, h2⟩ := discoverFetchLoop_allOk hnet hR 2 srcs ⟨0, 0, [], t⟩
    rw [h1, h2, hlen]
    refine ⟨rfl, rfl⟩

/-- Witness for C6 at a concrete budget-exhausted call and a concrete
all-success run. -/
theorem c6_budget_skip_witness :
    fetchWithRetry 2 2 (fun _ => FetchOutcome.ok "<html></html>")
        "https://www.pelando.com.br/search?q=amazon" ⟨2, 0, [], 0⟩ =
      (none, ⟨2, 0, [], 0⟩) ∧
    (discoverFetchLoop 2 2 (fun _ => FetchOutcome.ok "<html></html>")
        ["https://u1", "https://u2", "https://u3", "https://u4", "https://u5"]
        ⟨0, 0, [], 0⟩).2.2 = 2 :=
  ⟨(c6_budget_skip_amended.1 2 2 (fun _ => FetchOutcome.ok "<html></html>")
      "https://www.pelando.com.br/search?q=amazon" ⟨2, 0, [], 0⟩ [] (by decide)).1,
   (c6_budget_skip_amended.2 2 (fun _ => FetchOutcome.ok "<html></html>")
      ["https://u1", "https://u2", "https://u3", "https://u4", "https://u5"] 0
      (by decide) (fun i => ⟨"<html></html>", rfl⟩) (by decide)).1⟩

/-! ## Claim C10 — the budget can be overshot by retries -/

lemma attemptLoop_count_le (net : ℕ → FetchOutcome) (url : String) :
    ∀ (R : ℕ) (stats : ScrapeStats),
      ((attemptLoop net url R stats).2).requestCount ≤ stats.requestCount + R := by
  intro R
  induction R with
  | zero => intro stats; simp [attemptLoop]
  | succ R' ih =>
    intro stats
    cases hn : net stats.requestCount with
    | ok h =>
      simp only [attemptLoop, hn]
      omega
    | fail msg =>
      simp only [attemptLoop, hn]
      by_cases h0 : R' = 0
      · rw [if_pos h0]
        simp only []
        omega
      · rw [if_neg h0]
        have := ih { stats with requestCount := stats.requestCount + 1 }
        simp only [] at this
        omega

lemma attemptLoop_count_allFail {net : ℕ → FetchOutcome}
    (hnet : ∀ i, ∃ m, net i = FetchOutcome.fail m) (url : String) :
    ∀ (R : ℕ) (stats : ScrapeStats), 1 ≤ R →
      ((attemptLoop net url R stats).2).requestCount = stats.requestCount + R := by
  intro R
  induction R with
  | zero => intro stats h; omega
  | succ R' ih =>
    intro stats _
    obtain ⟨m, hm⟩ := hnet stats.requestCount
    simp only [attemptLoop, hm]
    by_cases h0 : R' = 0
    · rw [if_pos h0]
      simp only []
      omega
    · rw [if_neg h0]
      have := ih { stats with requestCount := stats.requestCount + 1 } (by omega)
      simp only [] at this
      omega

/-- C10: the budget check happens only on entry to `fetchWithRetry`,
while every retry attempt increments `requestCount`: a call entered at
`requestCount = budget - 1` with all attempts failing ends at
`budget - 1 + retries` (above the budget for 2 retries), and over a
whole session `requestCount` never exceeds
`MAX_REQUESTS + MAX_RETRIES - 1` — for the community defaults 4 and 2,
at most 5, not 4. -/
theorem c10_budget_overshoot_bound
    (b R : ℕ) (net : ℕ → FetchOutcome) (url : String) (stats : ScrapeStats)
    (srcs : List String) (hb : 1 ≤ b) :
    ((∀ i, ∃ m, net i = FetchOutcome.fail m) → 1 ≤ R → stats.requestCount + 1 = b →
        ((fetchWithRetry b R net url stats).2).requestCount = b - 1 + R) ∧
    (stats.requestCount ≤ b - 1 + R →
        ((discoverFetchLoop b R net srcs stats).1).requestCount ≤ b - 1 + R) := by
  constructor
  · intro hnet hR hc
    rw [fetchWithRetry, if_neg (by omega)]
    rw [attemptLoop_count_allFail hnet url R stats hR]
    omega
  · induction srcs generalizing stats with
    | nil =>
      intro hc
      simpa [discoverFetchLoop] using hc
    | cons url' rest ih =>
      intro hc
      rw [discoverFetchLoop]
      by_cases hge : stats.requestCount ≥ b
      · rw [if_pos hge]
        exact hc
      · rw [if_neg hge]
        apply ih
        rw [fetchWithRetry, if_neg hge]
        have := attemptLoop_count_le net url' R stats
        omega

/-- Witness for C10: community defaults (budget 4, 2 retries), a failing
network, one call entered at count 3 ends at count 5 (> 4), and a whole
session from 0 stays ≤ 5. -/
theorem c10_budget_overshoot_witness :
    ((fetchWithRetry 4 2 (fun _ => FetchOutcome.fail "ETIMEDOUT")
        "https://www.pelando.com.br/search?q=amazon" ⟨3, 0, [], 0⟩).2).requestCount = 5 ∧
    ((discoverFetchLoop 4 2 (fun _ => FetchOutcome.fail "ETIMEDOUT")
        ["https://u1", "https://u2", "https://u3"] ⟨0, 0, [], 0⟩).1).requestCount ≤ 5 :=
  ⟨(c10_budget_overshoot_bound 4 2 (fun _ => FetchOutcome.fail "ETIMEDOUT")
      "https://www.pelando.com.br/search?q=amazon" ⟨3, 0, [], 0⟩ [] (by decide)).1
      (fun i => ⟨"ETIMEDOUT", rfl⟩) (by decide) (by decide),
   (c10_budget_overshoot_bound 4 2 (fun _ => FetchOutcome.fail "ETIMEDOUT")
      "https://u0" ⟨0, 0, [], 0⟩
      ["https://u1", "https://u2", "https://u3"] (by decide)).2 (by decide)⟩

/-! ## Extractor (`scrapeDealsFromHTML` / `scrapeProductsFromHTML`)

Cheerio is abstracted: a card is the record of the query results the
extractor reads from it — one entry per selector of the per-field
selector list, in order — and an HTML page is, per card-selector of the
config, the list of matched cards in document order. -/

def MAX_PRODUCTS_PER_SOURCE : ℕ := 30

def MAX_PRODUCTS_PER_SOURCE_AMZ : ℕ := 25

/-- A community deal card: the text/attr of the first match per field
selector (`""` when the query matched nothing). -/
structure CommunityCard where
  titleTexts : List String
  linkHrefs : List String
  allHrefs : List String
  priceTexts : List String
  origPriceTexts : List String
  discountTexts : List String
  upvoteTexts : List String
  imageUrls : List String
  anyImageUrl : String
  categoryTexts : List String
  deriving DecidableEq, Repr

/-- The `let x = ""; for (sel of sels) { x = q(sel); if (x) break; }`. -/
def firstNonempty (xs : List String) : String :=
  (xs.find? (fun s => !(s = ""))).getD ""

/-- The `let v = 0; for (t of ts) { v = f(t); if (stop(v)) break; }`: the
first value satisfying `stop`, else the last computed value (`z` when
the list is empty). -/
def scanStop {α : Type} (f : String → α) (stop : α → Bool) (z : α) : List String → α
  | [] => z
  | [t] => f t
  | t :: ts => if stop (f t) then f t else scanStop f stop z ts

/-- The per-card `try` body of `scrapeDealsFromHTML`: the extracted deal
(`none` when the card is skipped) and the updated title-dedup set.  Note
the title key is added before the Amazon-link check, exactly as in the
source. -/
noncomputable def extractDeal (sourceName : String) (now : ℤ)
    (c : CommunityCard) (processedTitles : List String) :
    Option CommunityDeal × List String :=
  let title := firstNonempty (c.titleTexts.map jsTrim)
  if title = "" ∨ title.length < 10 then (none, processedTitles)
  else
    let titleKey := jsTake (jsLower title) 50
    if titleKey ∈ processedTitles then (none, processedTitles)
    else
      let processed := processedTitles ++ [titleKey]
      let amazonUrl0 := (c.linkHrefs.find? (fun h => substrJS "amazon" h)).getD ""
      let amazonUrl :=
        if amazonUrl0 = "" then
          (c.allHrefs.find? (fun h => substrJS "amazon" h || substrJS "amzn" h)).getD ""
        else amazonUrl0
      if amazonUrl = "" then (none, processed)
      else
        let asin := extractAsin amazonUrl
        let price := scanStop parsePrice (fun p => p > 0) 0 c.priceTexts
        let originalPrice := scanStop parsePrice (fun p => p > 0) 0 c.origPriceTexts
        let discount0 := scanStop parseDiscount (fun x => x > 0) 0 c.discountTexts
        let discount : ℤ :=
          if discount0 = 0 ∧ originalPrice > price ∧ price > 0 then
            round ((originalPrice - price) / originalPrice * 100)
          else discount0
        let upvotes := scanStop parseUpvotes (fun v => !(v = 0)) 0 c.upvoteTexts
        let imageUrl0 := firstNonempty c.imageUrls
        let imageUrl := if imageUrl0 = "" then c.anyImageUrl else imageUrl0
        let category := firstNonempty (c.categoryTexts.map jsTrim)
        let dealUrl := c.allHrefs.headD ""
        let d0 : CommunityDeal :=
          { id :=
              (match asin with
               | some a => a
               | none => generateDealId sourceName title price),
            title := jsTake title 250,
            price := price,
            originalPrice := if originalPrice = 0 then none else some originalPrice,
            discount := discount,
            dealUrl :=
              if jsStartsWith "http" dealUrl then dealUrl
              else "https://" ++ jsLower sourceName ++ ".com.br" ++ dealUrl,
            amazonUrl := some amazonUrl,
            asin := asin,
            imageUrl := imageUrl,
            upvotes := upvotes,
            category := if category = "" then "Geral" else category,
            normalizedCategory := normalizeCategory (title ++ " " ++ category),
            source := sourceName,
            dealScore := 0,
            scrapedAt := now }
        (some { d0 with dealScore := calculateDealScore d0 }, processed)

/-- The `$(cardSelector).each(...)` loop: skip every card once the
per-source cap is reached. -/
noncomputable def scrapeCards (sourceName : String) (now : ℤ) :
    List CommunityCard → List CommunityDeal → List String →
      List CommunityDeal × List String
  | [], deals, processed => (deals, processed)
  | c :: rest, deals, processed =>
    if deals.length ≥ MAX_PRODUCTS_PER_SOURCE then
      scrapeCards sourceName now rest deals processed
    else
      match extractDeal sourceName now c processed with
      | (some d, processed1) => scrapeCards sourceName now rest (deals ++ [d]) processed1
      | (none, processed1) => scrapeCards sourceName now rest deals processed1

/-- The card-selector loop of `scrapeDealsFromHTML`: `break` as soon as
the accumulated deal list is non-empty after a selector. -/
noncomputable def scrapeSelectors (sourceName : String) (now : ℤ) :
    List (List CommunityCard) → List CommunityDeal × List String →
      List CommunityDeal × List String
  | [], acc => acc
  | cards :: restSel, acc =>
    let acc1 := scrapeCards sourceName now cards acc.1 acc.2
    if acc1.1.length > 0 then acc1
    else scrapeSelectors sourceName now restSel acc1

noncomputable def scrapeDealsFromHTML (sourceName : String) (now : ℤ)
    (cardsPerSelector : List (List CommunityCard)) : List CommunityDeal :=
  (scrapeSelectors sourceName now cardsPerSelector ([], [])).1

/-- An Amazon product card (query results, as for `CommunityCard`). -/
structure AmazonCard where
  dataAsin : String
  dpHref : String
  titleTexts : List String
  imgAlt : String
  priceTexts : List String
  origPriceText : String
  badgeText : String
  imgUrl : String
  dynImageKeys : Option (List String)
  ratingText : String
  reviewText : String
  deriving DecidableEq, Repr

/-- The regex `/(\d+)%/`: first maximal digit run immediately followed
by `%` (tracking the current run while scanning). -/
def digitRunPercentAux : List Char → List Char → Option (List Char)
  | _, [] => none
  | run, c :: rest =>
    if c.isDigit then digitRunPercentAux (c :: run) rest
    else if c = '%' ∧ run ≠ [] then some run.reverse
    else digitRunPercentAux [] rest

/-- The badge-text fallback of the Amazon discount computation. -/
def badgeDiscountAmz (s : String) : ℤ :=
  match digitRunPercentAux [] s.toList with
  | some run => (digitsVal run : ℤ)
  | none => 0

def AMAZON_BASE : String := "https://www.amazon.com.br"

/-- The per-card `try` body of `scrapeProductsFromHTML`. -/
noncomputable def extractProduct (category : String) (source : SourceType) (now : ℤ)
    (c : AmazonCard) (processedAsins : List String) :
    Option ScrapedProduct × List String :=
  let asin0 := if c.dataAsin = "" then (extractAsinAmz c.dpHref).getD "" else c.dataAsin
  if asin0 = "" ∨ asin0.length ≠ 10 ∨ asin0 ∈ processedAsins then (none, processedAsins)
  else
    let processed := processedAsins ++ [asin0]
    let title0 :=
      ((c.titleTexts.map jsTrim).find?
        (fun t => !(t = "") && decide (5 < t.length))).getD ""
    let title1 := if title0 = "" then c.imgAlt else title0
    if title1 = "" ∨ title1.length < 5 then (none, processed)
    else
      let price := scanStop parsePrice (fun p => p > 0) 0 c.priceTexts
      let originalPrice := parsePrice c.origPriceText
      let discount0 : ℤ :=
        if originalPrice > price ∧ price > 0 then
          round ((originalPrice - price) / originalPrice * 100)
        else 0
      let discount : ℤ := if discount0 = 0 then badgeDiscountAmz c.badgeText else discount0
      let imageUrl :=
        match c.dynImageKeys with
        | some (u :: _) => u
        | _ => c.imgUrl
      let rating := parseRating c.ratingText
      let reviewCount := parseReviewCount c.reviewText
      let productCategory :=
        if category = "general" then normalizeCategoryAmz title1 else category
      let p0 : ScrapedProduct :=
        { asin := asin0,
          title := jsTake title1 250,
          price := price,
          originalPrice := if originalPrice = 0 then none else some originalPrice,
          discount := discount,
          imageUrl := imageUrl,
          productUrl := AMAZON_BASE ++ "/dp/" ++ asin0,
          rating := rating,
          reviewCount := reviewCount,
          category := productCategory,
          normalizedCategory := normalizeCategoryAmz productCategory,
          dealScore := 0,
          source := source,
          scrapedAt := now }
      (some { p0 with dealScore := calculateDealScoreAmz p0 }, processed)

/-- The `$(selector).each(...)` loop of the Amazon scraper. -/
noncomputable def scrapeProductCards (category : String) (source : SourceType) (now : ℤ) :
    List AmazonCard → List ScrapedProduct × List String →
      List ScrapedProduct × List String
  | [], st => st
  | c :: rest, st =>
    if st.1.length ≥ MAX_PRODUCTS_PER_SOURCE_AMZ then
      scrapeProductCards category source now rest st
    else
      match extractProduct category source now c st.2 with
      | (some p, asins1) => scrapeProductCards category source now rest (st.1 ++ [p], asins1)
      | (none, asins1) => scrapeProductCards category source now rest (st.1, asins1)

/-- The selector loop of `scrapeProductsFromHTML`: it only breaks at the
per-source cap — every selector's cards are otherwise processed, merging
results across selectors. -/
noncomputable def scrapeProductSelectors (category : String) (source : SourceType) (now : ℤ) :
    List (List AmazonCard) → List ScrapedProduct × List String →
      List ScrapedProduct × List String
  | [], st => st
  | cards :: restSel, st =>
    let st1 := scrapeProductCards category source now cards st
    if st1.1.length ≥ MAX_PRODUCTS_PER_SOURCE_AMZ then st1
    else scrapeProductSelectors category source now restSel st1

noncomputable def scrapeProductsFromHTML (category : String) (source : SourceType) (now : ℤ)
    (cardsPerSelector : List (List AmazonCard)) : List ScrapedProduct :=
  (scrapeProductSelectors category source now cardsPerSelector ([], [])).1

/-! ## Claim C7 — card-selector fallback -/

/-- Per-selector extraction outputs with no early break: each selector
starts from an empty deal list but inherits the threaded title-dedup
set. -/
noncomputable def selSteps (sourceName : String) (now : ℤ) :
    List (List CommunityCard) → List String → List (List CommunityDeal)
  | [], _ => []
  | cards :: restSel, processed =>
    let step := scrapeCards sourceName now cards [] processed
    step.1 :: selSteps sourceName now restSel step.2

lemma scrapeSelectors_eq_find (sourceName : String) (now : ℤ) :
    ∀ (lists : List (List CommunityCard)) (proc : List String),
      (scrapeSelectors sourceName now lists ([], proc)).1 =
        ((selSteps sourceName now lists proc).find? (fun l => !l.isEmpty)).getD [] := by
  intro lists
  induction lists with
  | nil => intro proc; simp [scrapeSelectors, selSteps]
  | cons cards restSel ih =>
    intro proc
    simp only [scrapeSelectors, selSteps]
    rw [find?_cons_eq]
    by_cases h : (scrapeCards sourceName now cards [] proc).1.length > 0
    · rw [if_pos h]
      have hne : (!(scrapeCards sourceName now cards [] proc).1.isEmpty) = true := by
        rcases hl : (scrapeCards sourceName now cards [] proc).1 with _ | ⟨d, ds⟩
        · rw [hl] at h
          simp at h
        · simp
      rw [if_pos hne]
      rfl
    · rw [if_neg h]
      have hempty : (scrapeCards sourceName now cards [] proc).1 = [] := by
        rcases hl : (scrapeCards sourceName now cards [] proc).1 with _ | ⟨d, ds⟩
        · rfl
        · rw [hl] at h
          simp at h
      have hne : ¬((!(scrapeCards sourceName now cards [] proc).1.isEmpty) = true) := by
        rw [hempty]
        simp
      rw [if_neg hne]
      have hacc : (scrapeCards sourceName now cards [] proc) =
          ([], (scrapeCards sourceName now cards [] proc).2) :=
        Prod.ext_iff.mpr ⟨hempty, rfl⟩
      rw [hacc]
      exact ih _

lemma scrapeProductCards_at_cap (category : String) (source : SourceType) (now : ℤ) :
    ∀ (cards : List AmazonCard) (st : List ScrapedProduct × List String),
      st.1.length ≥ MAX_PRODUCTS_PER_SOURCE_AMZ →
      scrapeProductCards category source now cards st = st := by
  intro cards
  induction cards with
  | nil => intro st _; rw [scrapeProductCards]
  | cons c rest ih =>
    intro st h
    rw [scrapeProductCards, if_pos h]
    exact ih st h

lemma foldl_scrapeProductCards_at_cap (category : String) (source : SourceType) (now : ℤ) :
    ∀ (lists : List (List AmazonCard)) (st : List ScrapedProduct × List String),
      st.1.length ≥ MAX_PRODUCTS_PER_SOURCE_AMZ →
      lists.foldl (fun st cards => scrapeProductCards category source now cards st) st = st := by
  intro lists
  induction lists with
  | nil => intro st _; rw [List.foldl_nil]
  | cons cards restSel ih =>
    intro st h
    rw [List.foldl_cons, scrapeProductCards_at_cap category source now cards st h]
    exact ih st h

def amzCardA : AmazonCard :=
  { dataAsin := "B00AAAAAA1", dpHref := "", titleTexts := ["Fone de Ouvido Bluetooth"],
    imgAlt := "", priceTexts := [], origPriceText := "", badgeText := "", imgUrl := "",
    dynImageKeys := none, ratingText := "", reviewText := "" }

def amzCardB : AmazonCard :=
  { amzCardA with dataAsin := "B00BBBBBB2", titleTexts := ["Teclado Mecanico Gamer"] }

/-- C7, counterexample: the Amazon extractor does merge cards from two
different card-selectors: one card under the first selector and another
under the second yield a two-product result, while each selector alone
yields one. -/
theorem c7_merges_across_selectors_counterexample :
    (scrapeProductsFromHTML "electronics" SourceType.bestsellers 0 [[amzCardA]]).map
        (fun p => p.asin) = ["B00AAAAAA1"] ∧
    (scrapeProductsFromHTML "electronics" SourceType.bestsellers 0 [[amzCardB]]).map
        (fun p => p.asin) = ["B00BBBBBB2"] ∧
    (scrapeProductsFromHTML "electronics" SourceType.bestsellers 0 [[amzCardA], [amzCardB]]).map
        (fun p => p.asin) = ["B00AAAAAA1", "B00BBBBBB2"] := by
  refine ⟨by decide, by decide, by decide⟩

/-- C7, amended: the community extractor (`scrapeDealsFromHTML`) tries
the ordered card-selector list and returns exactly the output of the
first selector that yields at least one extracted card (falling through
only on zero extracted cards, never merging selectors); the Amazon
extractor (`scrapeProductsFromHTML`) instead processes every selector's
cards into one shared result — deduplicated by ASIN, capped per source —
its selector loop being a plain fold with an early exit only at the
cap. -/
theorem c7_selector_fallback_amended :
    (∀ (sourceName : String) (now : ℤ) (lists : List (List CommunityCard))
        (proc : List String),
        (scrapeSelectors sourceName now lists ([], proc)).1 =
          ((selSteps sourceName now lists proc).find? (fun l => !l.isEmpty)).getD []) ∧
    (∀ (sourceName : String) (now : ℤ) (lists : List (List CommunityCard)),
        scrapeDealsFromHTML sourceName now lists =
          ((selSteps sourceName now lists []).find? (fun l => !l.isEmpty)).getD []) ∧
    (∀ (category : String) (source : SourceType) (now : ℤ)
        (lists : List (List AmazonCard)) (st : List ScrapedProduct × List String),
        scrapeProductSelectors category source now lists st =
          lists.foldl (fun st cards => scrapeProductCards category source now cards st) st) := by
  refine ⟨?_, ?_, ?_⟩
  · exact scrapeSelectors_eq_find
  · intro sourceName now lists
    exact scrapeSelectors_eq_find sourceName now lists []
  · intro category source now lists
    induction lists with
    | nil => intro st; rw [scrapeProductSelectors, List.foldl_nil]
    | cons cards restSel ih =>
      intro st
      simp only [scrapeProductSelectors, List.foldl_cons]
      by_cases h : (scrapeProductCards category source now cards st).1.length ≥
          MAX_PRODUCTS_PER_SOURCE_AMZ
      · rw [if_pos h,
          foldl_scrapeProductCards_at_cap category source now restSel _ h]
      · rw [if_neg h]
        exact ih _

/-! ## Claim C8 — where the discount comes from -/

def c8card : CommunityCard :=
  { titleTexts := ["  Smart TV 50 Polegadas 4K  "],
    linkHrefs := ["https://amazon.com.br/dp/B07XYZ1234"],
    allHrefs := ["https://amazon.com.br/dp/B07XYZ1234"],
    priceTexts := ["R$ 50,00"],
    origPriceTexts := ["R$ 100,00"],
    discountTexts := ["20% OFF"],
    upvoteTexts := [],
    imageUrls := [],
    anyImageUrl := "",
    categoryTexts := [] }

/-- C8, counterexample: a community card with price 50, list price 100
(formula: `round((100-50)/100*100) = 50`) and a `20% OFF` badge extracts
to a listing with discount 20, not 50: the community extractor gives the
badge precedence over the price formula, contradicting the claim that
the formula applies whenever both prices are present and
`listPrice > price > 0`. -/
theorem c8_badge_precedence_counterexample :
    ((extractDeal "Pelando" 0 c8card []).1).map (fun d => d.price) = some 50 ∧
    ((extractDeal "Pelando" 0 c8card []).1).map (fun d => d.originalPrice) =
      some (some 100) ∧
    ((extractDeal "Pelando" 0 c8card []).1).map (fun d => d.discount) = some 20 ∧
    (0 : ℚ) < 50 ∧ (50 : ℚ) < 100 ∧
    round (((100 : ℚ) - 50) / 100 * 100) = 50 ∧ (20 : ℤ) ≠ 50 := by
  have hp50 : parsePrice "R$ 50,00" = 50 := by
    have h : parseFloatParts (replaceFirstComma (stripThousandSeps
        (stripPriceChars ("R$ 50,00").toList))) =
        ⟨false, ['5', '0'], ['0', '0'], false, []⟩ := by decide
    have h1 : digitsVal ['5', '0'] = 50 := by decide
    have h2 : digitsVal ['0', '0'] = 0 := by decide
    have h3 : digitsVal ([] : List Char) = 0 := by decide
    simp only [parsePrice, parseFloatJS, h, FloatParts.value, h1, h2, h3]
    rw [if_neg (by simp), Option.getD_some]
    norm_num
  have hp100 : parsePrice "R$ 100,00" = 100 := by
    have h : parseFloatParts (replaceFirstComma (stripThousandSeps
        (stripPriceChars ("R$ 100,00").toList))) =
        ⟨false, ['1', '0', '0'], ['0', '0'], false, []⟩ := by decide
    have h1 : digitsVal ['1', '0', '0'] = 100 := by decide
    have h2 : digitsVal ['0', '0'] = 0 := by decide
    have h3 : digitsVal ([] : List Char) = 0 := by decide
    simp only [parsePrice, parseFloatJS, h, FloatParts.value, h1, h2, h3]
    rw [if_neg (by simp), Option.getD_some]
    norm_num
  refine ⟨?_, ?_, by decide, by norm_num, by norm_num, ?_, by decide⟩
  · have hpr : ((extractDeal "Pelando" 0 c8card []).1).map (fun d => d.price) =
        some (parsePrice "R$ 50,00") := rfl
    rw [hpr, hp50]
  · have hor : ((extractDeal "Pelando" 0 c8card []).1).map (fun d => d.originalPrice) =
        some (if parsePrice "R$ 100,00" = 0 then none else some (parsePrice "R$ 100,00")) :=
      rfl
    rw [hor, hp100]
    norm_num
  · rw [round_eq]
    norm_num

/-- C8, amended: for every extracted card, the Amazon variant sets the
discount to `round((listPrice - price)/listPrice*100)` when both prices
are present with `listPrice > price > 0` — falling back to the
discount-badge value when that formula does not apply OR rounds to 0 —
while the community variant gives the badge precedence: the badge value
whenever it parses positive, and only otherwise the price formula
(0 when neither applies). -/
theorem c8_discount_precedence_amended :
    (∀ (sourceName : String) (now : ℤ) (c : CommunityCard) (procs : List String),
        ((extractDeal sourceName now c procs).1).map (fun d => d.discount) =
          ((extractDeal sourceName now c procs).1).map (fun _ =>
            let badge := scanStop parseDiscount (fun x => x > 0) 0 c.discountTexts
            let price := scanStop parsePrice (fun p => p > 0) 0 c.priceTexts
            let orig := scanStop parsePrice (fun p => p > 0) 0 c.origPriceTexts
            if badge = 0 ∧ orig > price ∧ price > 0 then
              round ((orig - price) / orig * 100)
            else badge)) ∧
    (∀ (category : String) (source : SourceType) (now : ℤ) (c : AmazonCard)
        (procs : List String),
        ((extractProduct category source now c procs).1).map (fun p => p.discount) =
          ((extractProduct category source now c procs).1).map (fun _ =>
            let price := scanStop parsePrice (fun p => p > 0) 0 c.priceTexts
            let orig := parsePrice c.origPriceText
            let f : ℤ :=
              if orig > price ∧ price > 0 then round ((orig - price) / orig * 100) else 0
            if f = 0 then badgeDiscountAmz c.badgeText else f)) := by
  constructor
  · intro sourceName now c procs
    simp only [extractDeal]
    split_ifs <;> rfl
  · intro category source now c procs
    simp only [extractProduct]
    split_ifs <;> rfl

end Afiliados
